import Mathlib

/-!
Sorted map (`sortedmap.cpp`): a shallow embedding

The extension type keeps a `std::vector<MapItem>` ordered by key and finds
positions with `std::lower_bound`.  The embedding below follows the C++ source
function by function.

* `PyObject*` is an abstract type `Obj` with decidable equality; equality of two
  terms of `Obj` is pointer identity, not Python equality.
* What the interpreter does with an object (rich comparison, `str`) is a field of
  `Host`.  `PyObjectPtr::richcompare` is declared in `pythonhelpers.h` and the
  source uses it at type `bool`, so it is a `Bool`-valued field.
* A `PyObject*` result is an `Except`: `.error e` stands for a null return with
  exception `e` left pending in the interpreter.
* Memory allocation (`newref`, `PyList_New`, `PyTuple_New`, `PyTuple_Pack`,
  `push_back`, `insert`) is taken to succeed.
* The vector is a `List`; an iterator is an index into it, and `end()` is the
  length.
* The lookup and update methods are embedded as run to completion without a
  callback of the interpreter calling back into the map.  In `clear`, where the
  source orders the swap before the release of the old entries because that
  release may call back into the map, what a release does to the map is a
  parameter (`rel`).
-/

namespace SortedMapModel

/-- The two rich comparison operators the source asks for. -/
inductive CompareOp where
  | Py_LT
  | Py_EQ
  deriving DecidableEq, Repr

/-- Interpreter services used by the map.  `richcompare a b op` is the `bool`
returned by `PyObjectPtr::richcompare` for `a op b`; `PyObject_Str k` tells
whether `str(k)` produces a string (`true`) or raises (`false`); `Py_None` is
the `None` singleton. -/
structure Host (Obj : Type) where
  richcompare : Obj → Obj → CompareOp → Bool
  PyObject_Str : Obj → Bool
  Py_None : Obj

/-- Exceptions that a call can leave pending. -/
inductive PyErr (Obj : Type) where
  /-- The `KeyError` whose argument tuple is `(key,)`. -/
  | KeyError (key : Obj)
  /-- Whatever `str(key)` raised, left in place by `PyObject_Str`. -/
  | StrFailure (key : Obj)
  /-- The `TypeError` carrying a message. -/
  | TypeError (msg : String)
  deriving DecidableEq, Repr

/-- The class `MapItem`: an owned key reference and an owned value reference. -/
structure MapItem (Obj : Type) where
  m_key : Obj
  m_value : Obj
  deriving DecidableEq, Repr

namespace MapItem

variable {Obj : Type} [DecidableEq Obj]

/-- The method `MapItem::key_lessthan`: identical pointers are never less, otherwise
ask the interpreter for `m_key < key`. -/
def key_lessthan (h : Host Obj) (item : MapItem Obj) (key : Obj) : Bool :=
  if item.m_key = key then false
  else h.richcompare item.m_key key CompareOp.Py_LT

/-- The method `MapItem::key_equals`: pointer identity, or else `m_key == key` as
decided by the interpreter. -/
def key_equals (h : Host Obj) (item : MapItem Obj) (key : Obj) : Bool :=
  decide (item.m_key = key) || h.richcompare item.m_key key CompareOp.Py_EQ

/-- The method `MapItem::update`: rebinds the value field, the key field stays. -/
def update (item : MapItem Obj) (value : Obj) : MapItem Obj :=
  { item with m_value := value }

/-- The accessor `MapItem::key`. -/
def key (item : MapItem Obj) : Obj := item.m_key

/-- The accessor `MapItem::value`. -/
def value (item : MapItem Obj) : Obj := item.m_value

/-- The functor `MapItem::CompLess` handed to `std::lower_bound`. -/
def CompLess (h : Host Obj) (item : MapItem Obj) (key : Obj) : Bool :=
  item.key_lessthan h key

end MapItem

/-- The typedef `sortedmap_t`, a `std::vector<MapItem>`. -/
abbrev sortedmap_t (Obj : Type) := List (MapItem Obj)

section Algorithms

variable {Obj : Type}

/-- The loop of `std::lower_bound` (the textbook form used by the standard
library): `first` is the current iterator, `count` the length of the range
still to search.  Every round makes `count` smaller, so `fuel` rounds with
`fuel ≥ count` run the loop to its end. -/
def lower_bound_loop (comp : MapItem Obj → Obj → Bool) (v : sortedmap_t Obj) (key : Obj) :
    Nat → Nat → Nat → Nat
  | 0, first, _ => first
  | fuel + 1, first, count =>
    if 0 < count then
      let step := count / 2
      let it := first + step
      match v[it]? with
      | some item =>
        if comp item key then
          lower_bound_loop comp v key fuel (it + 1) (count - (step + 1))
        else
          lower_bound_loop comp v key fuel first step
      | none => first
    else first

/-- The call `std::lower_bound(v.begin(), v.end(), key, comp)`, as an index. -/
def lower_bound (comp : MapItem Obj → Obj → Bool) (v : sortedmap_t Obj) (key : Obj) : Nat :=
  lower_bound_loop comp v key v.length 0 v.length

/-- The call `v.insert(it, item)` of `std::vector`. -/
def vec_insert (v : sortedmap_t Obj) (it : Nat) (item : MapItem Obj) : sortedmap_t Obj :=
  v.take it ++ item :: v.drop it

/-- The call `v.erase(it)` of `std::vector`. -/
def vec_erase (v : sortedmap_t Obj) (it : Nat) : sortedmap_t Obj :=
  v.take it ++ v.drop (it + 1)

/-- The call `a.swap(b)` of `std::vector`: the two vectors afterwards. -/
def vec_swap (a b : sortedmap_t Obj) : sortedmap_t Obj × sortedmap_t Obj :=
  (b, a)

end Algorithms

namespace SortedMap

variable {Obj : Type} [DecidableEq Obj]

/-- The static method `SortedMap::lookup_fail`.  It always returns null; the
result here is the exception it leaves pending.  When `PyObject_Str(key)`
fails the function returns at once and the exception of `str` stays pending,
otherwise `KeyError((key,))` is set. -/
def lookup_fail (h : Host Obj) (key : Obj) : PyErr Obj :=
  if h.PyObject_Str key then PyErr.KeyError key
  else PyErr.StrFailure key

/-- The method `SortedMap::getitem`; `default_value = none` is the null default. -/
def getitem (h : Host Obj) (self : sortedmap_t Obj) (key : Obj)
    (default_value : Option Obj) : Except (PyErr Obj) Obj :=
  let it := lower_bound (MapItem.CompLess h) self key
  match self[it]? with
  | none =>
    match default_value with
    | some d => .ok d
    | none => .error (lookup_fail h key)
  | some item =>
    if item.key_equals h key then .ok item.value
    else
      match default_value with
      | some d => .ok d
      | none => .error (lookup_fail h key)

/-- The method `SortedMap::setitem`: the vector afterwards and the returned `int`. -/
def setitem (h : Host Obj) (self : sortedmap_t Obj) (key value : Obj) :
    sortedmap_t Obj × Int :=
  let it := lower_bound (MapItem.CompLess h) self key
  match self[it]? with
  | none => (self ++ [MapItem.mk key value], 0)
  | some item =>
    if item.key_equals h key then (self.set it (item.update value), 0)
    else (vec_insert self it (MapItem.mk key value), 0)

/-- The method `SortedMap::delitem`: the vector afterwards, the returned `int` and
the exception left pending, if any. -/
def delitem (h : Host Obj) (self : sortedmap_t Obj) (key : Obj) :
    sortedmap_t Obj × Int × Option (PyErr Obj) :=
  let it := lower_bound (MapItem.CompLess h) self key
  match self[it]? with
  | none => (self, -1, some (lookup_fail h key))
  | some item =>
    if item.key_equals h key then (vec_erase self it, 0, none)
    else (self, -1, some (lookup_fail h key))

/-- The method `SortedMap::contains`. -/
def contains (h : Host Obj) (self : sortedmap_t Obj) (key : Obj) : Bool :=
  let it := lower_bound (MapItem.CompLess h) self key
  match self[it]? with
  | none => false
  | some item => item.key_equals h key

/-- The method `SortedMap::pop`: the vector afterwards and the returned object. -/
def pop (h : Host Obj) (self : sortedmap_t Obj) (key : Obj)
    (default_value : Option Obj) : sortedmap_t Obj × Except (PyErr Obj) Obj :=
  let it := lower_bound (MapItem.CompLess h) self key
  match self[it]? with
  | none =>
    match default_value with
    | some d => (self, .ok d)
    | none => (self, .error (lookup_fail h key))
  | some item =>
    if item.key_equals h key then (vec_erase self it, .ok item.value)
    else
      match default_value with
      | some d => (self, .ok d)
      | none => (self, .error (lookup_fail h key))

/-- The method `SortedMap::keys`: the new list of key references. -/
def keys (self : sortedmap_t Obj) : List Obj :=
  self.map MapItem.key

/-- The method `SortedMap::values`: the new list of value references. -/
def values (self : sortedmap_t Obj) : List Obj :=
  self.map MapItem.value

/-- The method `SortedMap::items`: the new list of `(key, value)` tuples. -/
def items (self : sortedmap_t Obj) : List (Obj × Obj) :=
  self.map fun item => (item.key, item.value)

end SortedMap

section Slots

variable {Obj : Type} [DecidableEq Obj]

/-- Modelled from the spec: `py_type_fail` of `pythonhelpers.h`, which the
get and pop methods call on a wrong argument count; it leaves a `TypeError`
with the given message pending and returns null. -/
def py_type_fail (msg : String) : PyErr Obj :=
  PyErr.TypeError msg

/-- The vector of a map just made by `SortedMap_new`. -/
def SortedMap_new : sortedmap_t Obj := []

/-- The slot `SortedMap_length`. -/
def SortedMap_length (self : sortedmap_t Obj) : Int :=
  (self.length : Int)

/-- The slot `SortedMap_subscript`. -/
def SortedMap_subscript (h : Host Obj) (self : sortedmap_t Obj) (key : Obj) :
    Except (PyErr Obj) Obj :=
  SortedMap.getitem h self key none

/-- The slot `SortedMap_ass_subscript`; `value = none` is the null value of a
deletion. -/
def SortedMap_ass_subscript (h : Host Obj) (self : sortedmap_t Obj) (key : Obj)
    (value : Option Obj) : sortedmap_t Obj × Int × Option (PyErr Obj) :=
  match value with
  | none => SortedMap.delitem h self key
  | some v => ((SortedMap.setitem h self key v).1, (SortedMap.setitem h self key v).2, none)

/-- The slot `SortedMap_contains`. -/
def SortedMap_contains (h : Host Obj) (self : sortedmap_t Obj) (key : Obj) : Bool :=
  SortedMap.contains h self key

/-- The method `SortedMap_get`; `args` is the argument tuple. -/
def SortedMap_get (h : Host Obj) (self : sortedmap_t Obj) (args : List Obj) :
    Except (PyErr Obj) Obj :=
  match args with
  | [a0] => SortedMap.getitem h self a0 (some h.Py_None)
  | [a0, a1] => SortedMap.getitem h self a0 (some a1)
  | _ =>
    let nargs := args.length
    if 2 < nargs then
      .error (py_type_fail ("get() expected at most 2 arguments, got " ++ toString nargs))
    else
      .error (py_type_fail ("get() expected at least 1 argument, got " ++ toString nargs))

/-- The method `SortedMap_pop`; `args` is the argument tuple.  The result is the
vector afterwards and the returned object. -/
def SortedMap_pop (h : Host Obj) (self : sortedmap_t Obj) (args : List Obj) :
    sortedmap_t Obj × Except (PyErr Obj) Obj :=
  match args with
  | [a0] => SortedMap.pop h self a0 none
  | [a0, a1] => (self, SortedMap.getitem h self a0 (some a1))
  | _ =>
    let nargs := args.length
    if 2 < nargs then
      (self, .error (py_type_fail ("pop() expected at most 2 arguments, got " ++ toString nargs)))
    else
      (self, .error (py_type_fail ("pop() expected at least 1 argument, got " ++ toString nargs)))

/-- The method `SortedMap_keys`. -/
def SortedMap_keys (self : sortedmap_t Obj) : List Obj :=
  SortedMap.keys self

/-- The method `SortedMap_values`. -/
def SortedMap_values (self : sortedmap_t Obj) : List Obj :=
  SortedMap.values self

/-- The method `SortedMap_items`. -/
def SortedMap_items (self : sortedmap_t Obj) : List (Obj × Obj) :=
  SortedMap.items self

end Slots

section Release

variable {Obj : Type}

/-- The destructor of `MapItem` under a release behaviour `rel`: the members go
in reverse order of declaration, `m_value` before `m_key`, and dropping the
reference to an object `o` while the map's vector is `m` leaves the vector
`rel o m` (`m` itself when no callback runs or the callback only reads the
map).  The result is the vector afterwards and the vectors that the two
releases found. -/
def MapItem.destroy (rel : Obj → sortedmap_t Obj → sortedmap_t Obj) (item : MapItem Obj)
    (m : sortedmap_t Obj) : sortedmap_t Obj × List (sortedmap_t Obj) :=
  (rel item.m_key (rel item.m_value m), [m, rel item.m_value m])

/-- The destructor of a `std::vector<MapItem>` holding `old`, run while the
map's vector is `m`: the items are destroyed from first to last. -/
def vec_destroy (rel : Obj → sortedmap_t Obj → sortedmap_t Obj) :
    sortedmap_t Obj → sortedmap_t Obj → sortedmap_t Obj × List (sortedmap_t Obj)
  | [], m => (m, [])
  | item :: rest, m =>
    ((vec_destroy rel rest (item.destroy rel m).1).1,
      (item.destroy rel m).2 ++ (vec_destroy rel rest (item.destroy rel m).1).2)

/-- The body shared by `SortedMap_clear` and `SortedMap_clearmethod` together
with the destructor of the local `empty` that ends it: first the swap, then
the old items, now in `empty`, are destroyed.  The result is the map's vector
at the end and, in order, the vector that each release found. -/
def SortedMap_clear_release (rel : Obj → sortedmap_t Obj → sortedmap_t Obj)
    (self : sortedmap_t Obj) : sortedmap_t Obj × List (sortedmap_t Obj) :=
  vec_destroy rel (vec_swap self []).2 (vec_swap self []).1

/-- The vectors found by the releases of the references `os`, dropped in order
while the map's vector starts as `m`: each release finds what the releases
before it left. -/
def observe (rel : Obj → sortedmap_t Obj → sortedmap_t Obj) :
    List Obj → sortedmap_t Obj → List (sortedmap_t Obj)
  | [], _ => []
  | o :: os, m => m :: observe rel os (rel o m)

/-- The references dropped by `SortedMap_clear_release`, in order. -/
def released (old : sortedmap_t Obj) : List Obj :=
  old.flatMap fun item => [item.m_value, item.m_key]

end Release

section Specification

variable {Obj : Type}

/-- The interpreter's `a < b`. -/
def Host.lt (h : Host Obj) (a b : Obj) : Bool :=
  h.richcompare a b CompareOp.Py_LT

/-- The interpreter's `a == b`. -/
def Host.eq (h : Host Obj) (a b : Obj) : Bool :=
  h.richcompare a b CompareOp.Py_EQ

/-- The ordering hypothesis of the properties: `<` is a strict total order on
keys taken up to `==`.  It is irreflexive and transitive, a key between which
and `b` nothing can be told apart from `a < b` lies on one side
(`a < b` gives `a < c` or `c < b`), and `==` holds exactly when neither key is
less than the other. -/
structure StrictTotal (h : Host Obj) : Prop where
  irrefl : ∀ a, h.lt a a = false
  trans : ∀ a b c, h.lt a b = true → h.lt b c = true → h.lt a c = true
  cotrans : ∀ a b c, h.lt a b = true → h.lt a c = true ∨ h.lt c b = true
  eq_iff : ∀ a b, h.eq a b = true ↔ (h.lt a b = false ∧ h.lt b a = false)

/-- A list of keys is strictly ascending: every key is less than every later one. -/
def Ascending (h : Host Obj) (ks : List Obj) : Prop :=
  ks.Pairwise fun a b => h.lt a b = true

/-- Invariant I1 on the vector: the stored keys are strictly ascending. -/
def Sorted (h : Host Obj) (v : sortedmap_t Obj) : Prop :=
  Ascending h (SortedMap.keys v)

/-- Some stored key equals `key` in the sense of `MapItem::key_equals`. -/
def hasKey [DecidableEq Obj] (h : Host Obj) (v : sortedmap_t Obj) (key : Obj) : Prop :=
  ∃ item ∈ v, item.key_equals h key = true

instance Ascending.decidable (h : Host Obj) (ks : List Obj) : Decidable (Ascending h ks) := by
  unfold Ascending
  infer_instance

instance Sorted.decidable (h : Host Obj) (v : sortedmap_t Obj) : Decidable (Sorted h v) := by
  unfold Sorted
  infer_instance

instance hasKey.decidable [DecidableEq Obj] (h : Host Obj) (v : sortedmap_t Obj) (key : Obj) :
    Decidable (hasKey h v key) := by
  unfold hasKey
  infer_instance

/-- The first stored entry whose key equals `key`, searched from the front. -/
def findKey [DecidableEq Obj] (h : Host Obj) (v : sortedmap_t Obj) (key : Obj) :
    Option (MapItem Obj) :=
  v.find? fun item => item.key_equals h key

/-- The `bool` that the source gets from `PyObjectPtr::richcompare` when the
interpreter's comparison answers `compare a b op`, where `none` stands for a
comparison that raises; `onError` is the `bool` handed back in that case. -/
def richcompare_of (compare : Obj → Obj → CompareOp → Option Bool) (onError : Bool) :
    Obj → Obj → CompareOp → Bool :=
  fun a b op => (compare a b op).getD onError

/-- A mutating call on the map, as the interpreter issues it. -/
inductive Op (Obj : Type) where
  /-- The statement `m[key] = value`. -/
  | set (key value : Obj)
  /-- The statement `del m[key]`. -/
  | delete (key : Obj)
  /-- The call `m.pop(*args)`. -/
  | pop (args : List Obj)

/-- The vector after one call. -/
def Op.apply [DecidableEq Obj] (h : Host Obj) (self : sortedmap_t Obj) : Op Obj → sortedmap_t Obj
  | Op.set key value => (SortedMap_ass_subscript h self key (some value)).1
  | Op.delete key => (SortedMap_ass_subscript h self key none).1
  | Op.pop args => (SortedMap_pop h self args).1

/-- The vector after a sequence of calls, issued from left to right. -/
def run [DecidableEq Obj] (h : Host Obj) (ops : List (Op Obj)) (self : sortedmap_t Obj) : sortedmap_t Obj :=
  ops.foldl (Op.apply h) self

end Specification

section Hosts

/-- Objects are natural numbers compared by value, so two objects are equal
only when identical; `str` always succeeds and object `0` plays `None`. -/
def natHost : Host Nat where
  richcompare a b op :=
    match op with
    | CompareOp.Py_LT => decide (a < b)
    | CompareOp.Py_EQ => decide (a = b)
  PyObject_Str _ := true
  Py_None := 0

/-- Objects are natural numbers and object `n` has the value `n / 10`, so that
`30` and `31` are two distinct objects that compare equal; `str` always
succeeds and object `0` plays `None`. -/
def aliasHost : Host Nat where
  richcompare a b op :=
    match op with
    | CompareOp.Py_LT => decide (a / 10 < b / 10)
    | CompareOp.Py_EQ => decide (a / 10 = b / 10)
  PyObject_Str _ := true
  Py_None := 0

/-- As `natHost`, but `str` raises on every object from `100` on. -/
def strHost : Host Nat where
  richcompare a b op :=
    match op with
    | CompareOp.Py_LT => decide (a < b)
    | CompareOp.Py_EQ => decide (a = b)
  PyObject_Str k := decide (k < 100)
  Py_None := 0

/-- Objects are natural numbers of a class that defines `<` on the value
`n / 10` and leaves `==` at its default, identity: `30` and `31` are not
less than one another and not equal. -/
def ltOnlyHost : Host Nat where
  richcompare a b op :=
    match op with
    | CompareOp.Py_LT => decide (a / 10 < b / 10)
    | CompareOp.Py_EQ => decide (a = b)
  PyObject_Str _ := true
  Py_None := 0

/-- The comparison of natural numbers by value that raises as soon as one side
is an object from `100` on. -/
def raisingCompare (a b : Nat) (op : CompareOp) : Option Bool :=
  if 100 ≤ a ∨ 100 ≤ b then none
  else
    match op with
    | CompareOp.Py_LT => some (decide (a < b))
    | CompareOp.Py_EQ => some (decide (a = b))

/-- The host of `raisingCompare`, for either `bool` handed back on a raise. -/
def raisingHost (onError : Bool) : Host Nat where
  richcompare := richcompare_of raisingCompare onError
  PyObject_Str _ := true
  Py_None := 0

/-- A release behaviour in which every object, when the map drops its reference
to it, stores itself back into the map as a key. -/
def storeBack (o : Nat) (m : sortedmap_t Nat) : sortedmap_t Nat :=
  (SortedMap.setitem natHost m o o).1

end Hosts

/-! ## The binary search -/

section LowerBound

variable {Obj : Type}

/-- The loop never leaves the range it was given. -/
theorem lower_bound_loop_le (comp : MapItem Obj → Obj → Bool) (v : sortedmap_t Obj) (key : Obj)
    (fuel first count : Nat) :
    first ≤ lower_bound_loop comp v key fuel first count ∧
      lower_bound_loop comp v key fuel first count ≤ first + count := by
  induction fuel generalizing first count with
  | zero => simp [lower_bound_loop]
  | succ fuel ih =>
    unfold lower_bound_loop
    by_cases hc : 0 < count
    · simp only [hc, if_true]
      cases hget : v[first + count / 2]? with
      | none => simp
      | some item =>
        by_cases hcomp : comp item key = true
        · simp only [hcomp, if_true]
          have := ih (first + count / 2 + 1) (count - (count / 2 + 1))
          omega
        · simp only [hcomp]
          have := ih first (count / 2)
          simp only [Bool.false_eq_true, if_false]
          omega
    · simp [hc]

/-- The result of `std::lower_bound` is an index of the vector or its length. -/
theorem lower_bound_le (comp : MapItem Obj → Obj → Bool) (v : sortedmap_t Obj) (key : Obj) :
    lower_bound comp v key ≤ v.length := by
  have := (lower_bound_loop_le comp v key v.length 0 v.length).2
  simpa [lower_bound] using this

/-- On a range partitioned at `n` (true before `n`, false from `n` on) the loop
stops at `n`. -/
theorem lower_bound_loop_eq (comp : MapItem Obj → Obj → Bool) (v : sortedmap_t Obj) (key : Obj)
    (n : Nat)
    (hlo : ∀ i x, i < n → v[i]? = some x → comp x key = true)
    (hhi : ∀ i x, n ≤ i → v[i]? = some x → comp x key = false)
    (fuel first count : Nat) (hf : count ≤ fuel) (h1 : first ≤ n) (h2 : n ≤ first + count)
    (h3 : first + count ≤ v.length) :
    lower_bound_loop comp v key fuel first count = n := by
  induction fuel generalizing first count with
  | zero =>
    have : count = 0 := by omega
    simp only [lower_bound_loop]
    omega
  | succ fuel ih =>
    unfold lower_bound_loop
    by_cases hc : 0 < count
    · simp only [hc, if_true]
      have hlt : first + count / 2 < v.length := by omega
      have hget : v[first + count / 2]? = some (v[first + count / 2]) :=
        List.getElem?_eq_getElem hlt
      rw [hget]
      by_cases hcomp : comp v[first + count / 2] key = true
      · simp only [hcomp, if_true]
        have hn : first + count / 2 < n := by
          by_contra hge
          have := hhi _ _ (Nat.le_of_not_lt hge) hget
          rw [this] at hcomp
          exact Bool.false_ne_true hcomp
        exact ih _ _ (by omega) (by omega) (by omega) (by omega)
      · simp only [hcomp, Bool.false_eq_true, if_false]
        have hn : n ≤ first + count / 2 := by
          by_contra hlt2
          exact hcomp (hlo _ _ (Nat.lt_of_not_le hlt2) hget)
        exact ih _ _ (by omega) (by omega) (by omega) (by omega)
    · simp only [hc, if_false]
      omega

/-- When the comparison holds on all of `L` and on nothing of `R`, the lower bound
in `L ++ R` is the length of `L`. -/
theorem lower_bound_append (comp : MapItem Obj → Obj → Bool) (L R : sortedmap_t Obj) (key : Obj)
    (hL : ∀ x ∈ L, comp x key = true) (hR : ∀ x ∈ R, comp x key = false) :
    lower_bound comp (L ++ R) key = L.length := by
  unfold lower_bound
  apply lower_bound_loop_eq comp (L ++ R) key L.length
  · intro i x hi hx
    rw [List.getElem?_append_left hi] at hx
    exact hL x (List.getElem?_mem hx)
  · intro i x hi hx
    rw [List.getElem?_append_right hi] at hx
    exact hR x (List.getElem?_mem hx)
  · exact Nat.le_refl _
  · exact Nat.zero_le _
  · simp
  · simp

end LowerBound

/-! ## Keys under a strict total order -/

section Order

variable {Obj : Type}

theorem StrictTotal.asymm {h : Host Obj} (hs : StrictTotal h) {a b : Obj}
    (hab : h.lt a b = true) : h.lt b a = false := by
  cases hba : h.lt b a with
  | false => rfl
  | true =>
    have := hs.trans a b a hab hba
    rw [hs.irrefl a] at this
    exact absurd this Bool.false_ne_true

theorem StrictTotal.eq_self {h : Host Obj} (hs : StrictTotal h) (a : Obj) : h.eq a a = true :=
  (hs.eq_iff a a).2 ⟨hs.irrefl a, hs.irrefl a⟩

/-- With an irreflexive `<` the identity test of `key_lessthan` changes nothing. -/
theorem key_lessthan_eq_lt [DecidableEq Obj] {h : Host Obj} (hs : StrictTotal h) (item : MapItem Obj) (key : Obj) :
    item.key_lessthan h key = h.lt item.m_key key := by
  unfold MapItem.key_lessthan
  by_cases hid : item.m_key = key
  · rw [if_pos hid, hid, hs.irrefl]
  · rw [if_neg hid]
    rfl

/-- When `==` agrees with the order the identity test of `key_equals` changes
nothing. -/
theorem key_equals_eq_eq [DecidableEq Obj] {h : Host Obj} (hs : StrictTotal h) (item : MapItem Obj) (key : Obj) :
    item.key_equals h key = h.eq item.m_key key := by
  unfold MapItem.key_equals
  by_cases hid : item.m_key = key
  · rw [hid, hs.eq_self]
    simp
  · simp only [hid, decide_False, Bool.false_or]
    rfl

theorem key_equals_false_of_lt [DecidableEq Obj] {h : Host Obj} (hs : StrictTotal h) (item : MapItem Obj)
    (key : Obj) (hlt : h.lt item.m_key key = true) : item.key_equals h key = false := by
  rw [key_equals_eq_eq hs]
  cases heq : h.eq item.m_key key with
  | false => rfl
  | true =>
    have := ((hs.eq_iff _ _).1 heq).1
    rw [hlt] at this
    exact absurd this.symm Bool.false_ne_true

theorem key_equals_false_of_gt [DecidableEq Obj] {h : Host Obj} (hs : StrictTotal h) (item : MapItem Obj)
    (key : Obj) (hgt : h.lt key item.m_key = true) : item.key_equals h key = false := by
  rw [key_equals_eq_eq hs]
  cases heq : h.eq item.m_key key with
  | false => rfl
  | true =>
    have := ((hs.eq_iff _ _).1 heq).2
    rw [hgt] at this
    exact absurd this.symm Bool.false_ne_true

/-- A key that is neither less than nor equal to `key` is greater. -/
theorem gt_of_not_lt_of_not_equals [DecidableEq Obj] {h : Host Obj} (hs : StrictTotal h) (item : MapItem Obj)
    (key : Obj) (hlt : h.lt item.m_key key = false) (hne : item.key_equals h key = false) :
    h.lt key item.m_key = true := by
  rw [key_equals_eq_eq hs] at hne
  cases hgt : h.lt key item.m_key with
  | true => rfl
  | false =>
    have := (hs.eq_iff _ _).2 ⟨hlt, hgt⟩
    rw [hne] at this
    exact absurd this Bool.false_ne_true

theorem sorted_iff_pairwise (h : Host Obj) (v : sortedmap_t Obj) :
    Sorted h v ↔ v.Pairwise fun a b => h.lt a.m_key b.m_key = true := by
  unfold Sorted Ascending SortedMap.keys
  rw [List.pairwise_map]
  rfl

theorem sorted_append_cons (h : Host Obj) (L R : sortedmap_t Obj) (y : MapItem Obj) :
    Sorted h (L ++ y :: R) ↔
      Sorted h (L ++ R) ∧ (∀ x ∈ L, h.lt x.m_key y.m_key = true) ∧
        (∀ x ∈ R, h.lt y.m_key x.m_key = true) := by
  simp only [sorted_iff_pairwise, List.pairwise_append, List.pairwise_cons, List.mem_cons]
  constructor
  · rintro ⟨hL, ⟨hyR, hR⟩, hLR⟩
    exact ⟨⟨hL, hR, fun a ha b hb => hLR a ha b (Or.inr hb)⟩,
      fun x hx => hLR x hx y (Or.inl rfl), hyR⟩
  · rintro ⟨⟨hL, hR, hLR⟩, hLy, hyR⟩
    refine ⟨hL, ⟨hyR, hR⟩, ?_⟩
    intro a ha b hb
    rcases hb with hb | hb
    · rw [hb]
      exact hLy a ha
    · exact hLR a ha b hb

/-- A sorted vector splits into the entries less than `key` and the others. -/
theorem sorted_split {h : Host Obj} (hs : StrictTotal h) (v : sortedmap_t Obj)
    (hv : Sorted h v) (key : Obj) :
    ∃ L R, v = L ++ R ∧ (∀ x ∈ L, h.lt x.m_key key = true) ∧
      (∀ x ∈ R, h.lt x.m_key key = false) := by
  induction v with
  | nil => exact ⟨[], [], rfl, by simp, by simp⟩
  | cons a t ih =>
    have hpw := (sorted_iff_pairwise h (a :: t)).1 hv
    rw [List.pairwise_cons] at hpw
    obtain ⟨L, R, ht, hL, hR⟩ := ih ((sorted_iff_pairwise h t).2 hpw.2)
    cases ha : h.lt a.m_key key with
    | true =>
      refine ⟨a :: L, R, by rw [ht]; rfl, ?_, hR⟩
      intro x hx
      rcases List.mem_cons.1 hx with hx | hx
      · rw [hx]
        exact ha
      · exact hL x hx
    | false =>
      refine ⟨[], a :: t, rfl, by simp, ?_⟩
      intro x hx
      rcases List.mem_cons.1 hx with hx | hx
      · rw [hx]
        exact ha
      · cases hxk : h.lt x.m_key key with
        | false => rfl
        | true =>
          have := hs.trans _ _ _ (hpw.1 x hx) hxk
          rw [ha] at this
          exact absurd this Bool.false_ne_true

/-- In an ascending list of keys no key equals a later one, by `==` or by
identity. -/
theorem ascending_distinct {h : Host Obj} (hs : StrictTotal h) (ks : List Obj)
    (hk : Ascending h ks) : ks.Pairwise fun a b => h.eq a b = false ∧ a ≠ b := by
  refine List.Pairwise.imp ?_ hk
  intro a b hab
  constructor
  · cases heq : h.eq a b with
    | false => rfl
    | true =>
      have := ((hs.eq_iff a b).1 heq).1
      rw [hab] at this
      exact absurd this.symm Bool.false_ne_true
  · intro habeq
    rw [habeq, hs.irrefl] at hab
    exact absurd hab Bool.false_ne_true

/-- Under a transitive `<` it is the same to ask that every key be less than
every later one and that every key be less than the next one. -/
theorem ascending_iff_chain {h : Host Obj} (hs : StrictTotal h) (ks : List Obj) :
    Ascending h ks ↔ ks.Chain' fun a b => h.lt a b = true := by
  haveI : IsTrans Obj fun a b => h.lt a b = true := ⟨hs.trans⟩
  exact List.chain'_iff_pairwise.symm

end Order

/-! ## What each method does around the lower bound -/

section Evaluation

variable {Obj : Type}

theorem getElem?_at_length (L R : sortedmap_t Obj) : (L ++ R)[L.length]? = R.head? := by
  rw [List.getElem?_append_right (Nat.le_refl _)]
  cases R <;> simp

theorem vec_insert_at_length (L R : sortedmap_t Obj) (z : MapItem Obj) :
    vec_insert (L ++ R) L.length z = L ++ z :: R := by
  unfold vec_insert
  rw [List.take_left, List.drop_left]

theorem vec_erase_at_length (L R : sortedmap_t Obj) (y : MapItem Obj) :
    vec_erase (L ++ y :: R) L.length = L ++ R := by
  unfold vec_erase
  rw [List.take_left, ← List.drop_drop, List.drop_left]
  rfl

theorem set_at_length (L R : sortedmap_t Obj) (y z : MapItem Obj) :
    (L ++ y :: R).set L.length z = L ++ z :: R := by
  rw [List.set_append_right _ _ (Nat.le_refl _)]
  simp

/-- Any vector is cut by its lower bound: either the bound is `end()`, or the
vector is `L ++ y :: R` with the bound pointing at `y`. -/
theorem lower_bound_cases (comp : MapItem Obj → Obj → Bool) (v : sortedmap_t Obj) (key : Obj) :
    lower_bound comp v key = v.length ∨
      ∃ L y R, v = L ++ y :: R ∧ lower_bound comp v key = L.length := by
  rcases Nat.lt_or_ge (lower_bound comp v key) v.length with hlt | hge
  · right
    refine ⟨v.take (lower_bound comp v key), v[lower_bound comp v key],
      v.drop (lower_bound comp v key + 1), ?_, ?_⟩
    · rw [← List.drop_eq_getElem_cons hlt, List.take_append_drop]
    · rw [List.length_take]
      omega
  · left
    exact Nat.le_antisymm (lower_bound_le comp v key) hge

variable [DecidableEq Obj]

/-- The methods when the lower bound is `L.length` in `L ++ R` and no entry of
`R` has a key equal to `key`: the key is not found. -/
theorem eval_absent (h : Host Obj) (L R : sortedmap_t Obj) (key : Obj)
    (hp : lower_bound (MapItem.CompLess h) (L ++ R) key = L.length)
    (hR : ∀ x ∈ R, x.key_equals h key = false) (value : Obj) (d : Option Obj) :
    SortedMap.getitem h (L ++ R) key d
        = (match d with
          | some dv => .ok dv
          | none => .error (SortedMap.lookup_fail h key)) ∧
      SortedMap.setitem h (L ++ R) key value = (L ++ MapItem.mk key value :: R, 0) ∧
      SortedMap.delitem h (L ++ R) key = (L ++ R, -1, some (SortedMap.lookup_fail h key)) ∧
      SortedMap.contains h (L ++ R) key = false ∧
      SortedMap.pop h (L ++ R) key d
        = (L ++ R, match d with
          | some dv => .ok dv
          | none => .error (SortedMap.lookup_fail h key)) := by
  unfold SortedMap.getitem SortedMap.setitem SortedMap.delitem SortedMap.contains SortedMap.pop
  simp only [hp, getElem?_at_length]
  cases R with
  | nil => cases d <;> simp
  | cons y R =>
    have hy := hR y (List.mem_cons_self _ _)
    simp only [List.head?_cons, hy, Bool.false_eq_true, if_false, vec_insert_at_length]
    cases d <;> simp

/-- The methods when the lower bound points at an entry `y` whose key equals
`key`: the key is found at `y`. -/
theorem eval_present (h : Host Obj) (L R : sortedmap_t Obj) (y : MapItem Obj) (key : Obj)
    (hp : lower_bound (MapItem.CompLess h) (L ++ y :: R) key = L.length)
    (hy : y.key_equals h key = true) (value : Obj) (d : Option Obj) :
    SortedMap.getitem h (L ++ y :: R) key d = .ok y.m_value ∧
      SortedMap.setitem h (L ++ y :: R) key value = (L ++ MapItem.mk y.m_key value :: R, 0) ∧
      SortedMap.delitem h (L ++ y :: R) key = (L ++ R, 0, none) ∧
      SortedMap.contains h (L ++ y :: R) key = true ∧
      SortedMap.pop h (L ++ y :: R) key d = (L ++ R, .ok y.m_value) := by
  unfold SortedMap.getitem SortedMap.setitem SortedMap.delitem SortedMap.contains SortedMap.pop
  simp only [hp, getElem?_at_length, List.head?_cons, hy, if_true, set_at_length,
    vec_erase_at_length]
  simp [MapItem.value, MapItem.update]

end Evaluation

/-! ## Sorted vectors -/

section SortedFacts

variable {Obj : Type} [DecidableEq Obj]

/-- In a sorted vector the lower bound of `key` separates the smaller keys from
the greater ones, with at most one entry, whose key equals `key`, in between. -/
theorem locate {h : Host Obj} (hs : StrictTotal h) (v : sortedmap_t Obj) (hv : Sorted h v)
    (key : Obj) :
    (∃ L R, v = L ++ R ∧ lower_bound (MapItem.CompLess h) v key = L.length ∧
        (∀ x ∈ L, h.lt x.m_key key = true) ∧ (∀ x ∈ R, h.lt key x.m_key = true)) ∨
      (∃ L y R, v = L ++ y :: R ∧ lower_bound (MapItem.CompLess h) v key = L.length ∧
        y.key_equals h key = true ∧
        (∀ x ∈ L, h.lt x.m_key key = true) ∧ (∀ x ∈ R, h.lt key x.m_key = true)) := by
  obtain ⟨L, R, hLR, hL, hR⟩ := sorted_split hs v hv key
  have hp : lower_bound (MapItem.CompLess h) v key = L.length := by
    rw [hLR]
    apply lower_bound_append
    · intro x hx
      show x.key_lessthan h key = true
      rw [key_lessthan_eq_lt hs]
      exact hL x hx
    · intro x hx
      show x.key_lessthan h key = false
      rw [key_lessthan_eq_lt hs]
      exact hR x hx
  cases R with
  | nil => exact Or.inl ⟨L, [], hLR, hp, hL, by simp⟩
  | cons y R =>
    have hy := hR y (List.mem_cons_self _ _)
    rw [hLR] at hv
    have hsorted := (sorted_append_cons h L R y).1 hv
    cases hyk : y.key_equals h key with
    | true =>
      refine Or.inr ⟨L, y, R, hLR, hp, hyk, hL, ?_⟩
      intro x hx
      rcases hs.cotrans _ _ key (hsorted.2.2 x hx) with hlt | hgt
      · rw [hy] at hlt
        exact absurd hlt Bool.false_ne_true
      · exact hgt
    | false =>
      have hgt := gt_of_not_lt_of_not_equals hs y key hy hyk
      refine Or.inl ⟨L, y :: R, hLR, hp, hL, ?_⟩
      intro x hx
      rcases List.mem_cons.1 hx with hx | hx
      · rw [hx]
        exact hgt
      · exact hs.trans _ _ _ hgt (hsorted.2.2 x hx)

/-- The two cases of `locate` told apart by `hasKey`, with the keys around the
lower bound all different from `key`. -/
theorem locate_hasKey {h : Host Obj} (hs : StrictTotal h) (v : sortedmap_t Obj)
    (hv : Sorted h v) (key : Obj) :
    (¬ hasKey h v key ∧ ∃ L R, v = L ++ R ∧
        lower_bound (MapItem.CompLess h) v key = L.length ∧
        (∀ x ∈ L, h.lt x.m_key key = true) ∧ (∀ x ∈ R, h.lt key x.m_key = true) ∧
        (∀ x ∈ R, x.key_equals h key = false)) ∨
      (hasKey h v key ∧ ∃ L y R, v = L ++ y :: R ∧
        lower_bound (MapItem.CompLess h) v key = L.length ∧ y.key_equals h key = true ∧
        (∀ x ∈ L, h.lt x.m_key key = true) ∧ (∀ x ∈ R, h.lt key x.m_key = true) ∧
        (∀ x ∈ L ++ R, x.key_equals h key = false)) := by
  rcases locate hs v hv key with ⟨L, R, hLR, hp, hL, hR⟩ | ⟨L, y, R, hLR, hp, hy, hL, hR⟩
  · left
    refine ⟨?_, L, R, hLR, hp, hL, hR, fun x hx => key_equals_false_of_gt hs x key (hR x hx)⟩
    rintro ⟨x, hx, hxk⟩
    rw [hLR] at hx
    rcases List.mem_append.1 hx with hx | hx
    · rw [key_equals_false_of_lt hs x key (hL x hx)] at hxk
      exact absurd hxk Bool.false_ne_true
    · rw [key_equals_false_of_gt hs x key (hR x hx)] at hxk
      exact absurd hxk Bool.false_ne_true
  · right
    refine ⟨⟨y, by rw [hLR]; simp, hy⟩, L, y, R, hLR, hp, hy, hL, hR, ?_⟩
    intro x hx
    rcases List.mem_append.1 hx with hx | hx
    · exact key_equals_false_of_lt hs x key (hL x hx)
    · exact key_equals_false_of_gt hs x key (hR x hx)

/-- The method `setitem` keeps a sorted vector sorted. -/
theorem sorted_setitem {h : Host Obj} (hs : StrictTotal h) (v : sortedmap_t Obj)
    (hv : Sorted h v) (key value : Obj) : Sorted h (SortedMap.setitem h v key value).1 := by
  rcases locate_hasKey hs v hv key with
    ⟨-, L, R, hLR, hp, hL, hR, hRk⟩ | ⟨-, L, y, R, hLR, hp, hy, hL, hR, -⟩
  · subst hLR
    rw [(eval_absent h L R key hp hRk value none).2.1]
    exact (sorted_append_cons h L R _).2 ⟨hv, hL, hR⟩
  · subst hLR
    rw [(eval_present h L R y key hp hy value none).2.1]
    exact (sorted_append_cons h L R _).2 ((sorted_append_cons h L R y).1 hv)

/-- The method `pop` keeps a sorted vector sorted, with or without a default. -/
theorem sorted_pop {h : Host Obj} (hs : StrictTotal h) (v : sortedmap_t Obj)
    (hv : Sorted h v) (key : Obj) (d : Option Obj) : Sorted h (SortedMap.pop h v key d).1 := by
  rcases locate_hasKey hs v hv key with
    ⟨-, L, R, hLR, hp, hL, hR, hRk⟩ | ⟨-, L, y, R, hLR, hp, hy, hL, hR, -⟩
  · subst hLR
    rw [(eval_absent h L R key hp hRk key d).2.2.2.2]
    exact hv
  · subst hLR
    rw [(eval_present h L R y key hp hy key d).2.2.2.2]
    exact ((sorted_append_cons h L R y).1 hv).1

/-- The method `delitem` keeps a sorted vector sorted. -/
theorem sorted_delitem {h : Host Obj} (hs : StrictTotal h) (v : sortedmap_t Obj)
    (hv : Sorted h v) (key : Obj) : Sorted h (SortedMap.delitem h v key).1 := by
  rcases locate_hasKey hs v hv key with
    ⟨-, L, R, hLR, hp, hL, hR, hRk⟩ | ⟨-, L, y, R, hLR, hp, hy, hL, hR, -⟩
  · subst hLR
    rw [(eval_absent h L R key hp hRk key none).2.2.1]
    exact hv
  · subst hLR
    rw [(eval_present h L R y key hp hy key none).2.2.1]
    exact ((sorted_append_cons h L R y).1 hv).1

/-- The pop method keeps a sorted vector sorted for every argument tuple. -/
theorem sorted_SortedMap_pop {h : Host Obj} (hs : StrictTotal h) (v : sortedmap_t Obj)
    (hv : Sorted h v) (args : List Obj) : Sorted h (SortedMap_pop h v args).1 := by
  unfold SortedMap_pop
  split
  · exact sorted_pop hs v hv _ none
  · exact hv
  · dsimp only
    split <;> exact hv

/-- Every call of `Op` keeps a sorted vector sorted. -/
theorem sorted_apply {h : Host Obj} (hs : StrictTotal h) (v : sortedmap_t Obj)
    (hv : Sorted h v) (op : Op Obj) : Sorted h (Op.apply h v op) := by
  cases op with
  | set key value => exact sorted_setitem hs v hv key value
  | delete key => exact sorted_delitem hs v hv key
  | pop args => exact sorted_SortedMap_pop hs v hv args

theorem sorted_run {h : Host Obj} (hs : StrictTotal h) (ops : List (Op Obj))
    (v : sortedmap_t Obj) (hv : Sorted h v) : Sorted h (run h ops v) := by
  induction ops generalizing v with
  | nil => exact hv
  | cons op ops ih => exact ih _ (sorted_apply hs v hv op)

/-- In a sorted vector that has `key`, the lower bound points at the one entry
whose key equals `key`. -/
theorem present_view {h : Host Obj} (hs : StrictTotal h) (v : sortedmap_t Obj)
    (hv : Sorted h v) (key : Obj) (hk : hasKey h v key) :
    ∃ L y R, v = L ++ y :: R ∧
      lower_bound (MapItem.CompLess h) (L ++ y :: R) key = L.length ∧
      y.key_equals h key = true ∧ (∀ x ∈ L ++ R, x.key_equals h key = false) := by
  rcases locate_hasKey hs v hv key with
    ⟨hn, -⟩ | ⟨-, L, y, R, hLR, hp, hy, -, -, hne⟩
  · exact absurd hk hn
  · exact ⟨L, y, R, hLR, by rw [← hLR]; exact hp, hy, hne⟩

/-- In any vector that has no key equal to `key`, the entries from the lower
bound on have no key equal to `key`: the methods do not find it. -/
theorem absent_view (h : Host Obj) (v : sortedmap_t Obj) (key : Obj)
    (hn : ¬ hasKey h v key) :
    ∃ L R, v = L ++ R ∧ lower_bound (MapItem.CompLess h) (L ++ R) key = L.length ∧
      (∀ x ∈ R, x.key_equals h key = false) := by
  have hall : ∀ x ∈ v, x.key_equals h key = false := by
    intro x hx
    cases hxk : x.key_equals h key with
    | false => rfl
    | true => exact absurd ⟨x, hx, hxk⟩ hn
  rcases lower_bound_cases (MapItem.CompLess h) v key with hend | ⟨L, y, R, hLR, hp⟩
  · exact ⟨v, [], by simp, by simpa using hend, by simp⟩
  · refine ⟨L, y :: R, hLR, by rw [← hLR]; exact hp, ?_⟩
    intro x hx
    exact hall x (by rw [hLR]; exact List.mem_append_right _ hx)

/-- The lower bound of `key` in `L ++ y :: R` is `L.length` when the keys of `L`
are less than `key`, the key of `y` is identical or equal to `key` and the keys
of `R` are greater. -/
theorem lower_bound_mid {h : Host Obj} (hs : StrictTotal h) (L R : sortedmap_t Obj)
    (y : MapItem Obj) (key : Obj) (hL : ∀ x ∈ L, h.lt x.m_key key = true)
    (hy : y.key_equals h key = true) (hR : ∀ x ∈ R, h.lt key x.m_key = true) :
    lower_bound (MapItem.CompLess h) (L ++ y :: R) key = L.length := by
  apply lower_bound_append
  · intro x hx
    show x.key_lessthan h key = true
    rw [key_lessthan_eq_lt hs]
    exact hL x hx
  · intro x hx
    show x.key_lessthan h key = false
    rw [key_lessthan_eq_lt hs]
    rcases List.mem_cons.1 hx with hx | hx
    · rw [hx]
      rw [key_equals_eq_eq hs] at hy
      exact ((hs.eq_iff _ _).1 hy).1
    · exact hs.asymm (hR x hx)

/-- After `setitem` on a sorted vector the lower bound of `key` points at an
entry with a key equal to `key` and the value just stored; the entries around
it are those of the vector before, an entry with an equal key apart. -/
theorem setitem_view {h : Host Obj} (hs : StrictTotal h) (v : sortedmap_t Obj)
    (hv : Sorted h v) (key value : Obj) :
    ∃ L y R, (SortedMap.setitem h v key value).1 = L ++ y :: R ∧
      lower_bound (MapItem.CompLess h) (L ++ y :: R) key = L.length ∧
      y.key_equals h key = true ∧ y.m_value = value ∧
      (∀ x ∈ L ++ R, x.key_equals h key = false) ∧
      (v = L ++ R ∨ ∃ y0, v = L ++ y0 :: R ∧ y0.m_key = y.m_key) := by
  have hsorted := sorted_setitem hs v hv key value
  have hhas : hasKey h (SortedMap.setitem h v key value).1 key ∧
      ∃ L y R, (SortedMap.setitem h v key value).1 = L ++ y :: R ∧
        y.key_equals h key = true ∧ y.m_value = value ∧
        (∀ x ∈ L ++ R, x.key_equals h key = false) ∧
        (∀ x ∈ L, h.lt x.m_key key = true) ∧ (∀ x ∈ R, h.lt key x.m_key = true) ∧
        (v = L ++ R ∨ ∃ y0, v = L ++ y0 :: R ∧ y0.m_key = y.m_key) := by
    rcases locate_hasKey hs v hv key with
      ⟨hn, L, R, hLR, hp, hL, hR, hRk⟩ | ⟨-, L, y, R, hLR, hp, hy, hL, hR, hne⟩
    · subst hLR
      rw [(eval_absent h L R key hp hRk value none).2.1]
      have hself : (MapItem.mk key value).key_equals h key = true := by
        simp [MapItem.key_equals]
      refine ⟨⟨_, by simp, hself⟩, L, _, R, rfl, hself, rfl, ?_, hL, hR, Or.inl rfl⟩
      intro x hx
      rcases List.mem_append.1 hx with hx | hx
      · exact key_equals_false_of_lt hs x key (hL x hx)
      · exact hRk x hx
    · subst hLR
      rw [(eval_present h L R y key hp hy value none).2.1]
      have hself : (MapItem.mk y.m_key value).key_equals h key = true := hy
      exact ⟨⟨_, by simp, hself⟩, L, _, R, rfl, hself, rfl, hne, hL, hR, Or.inr ⟨y, rfl, rfl⟩⟩
  obtain ⟨-, L, y, R, hLR, hy, hval, hne, hL, hR, hv0⟩ := hhas
  exact ⟨L, y, R, hLR, lower_bound_mid hs L R y key hL hy hR, hy, hval, hne, hv0⟩

theorem SortedMap_get_one (h : Host Obj) (v : sortedmap_t Obj) (key : Obj) :
    SortedMap_get h v [key] = SortedMap.getitem h v key (some h.Py_None) := rfl

theorem SortedMap_get_two (h : Host Obj) (v : sortedmap_t Obj) (key d : Obj) :
    SortedMap_get h v [key, d] = SortedMap.getitem h v key (some d) := rfl

theorem SortedMap_pop_one (h : Host Obj) (v : sortedmap_t Obj) (key : Obj) :
    SortedMap_pop h v [key] = SortedMap.pop h v key none := rfl

theorem SortedMap_pop_two (h : Host Obj) (v : sortedmap_t Obj) (key d : Obj) :
    SortedMap_pop h v [key, d] = (v, SortedMap.getitem h v key (some d)) := rfl

/-- After `setitem` the key is looked up with the value just stored, whatever
the default. -/
theorem getitem_setitem {h : Host Obj} (hs : StrictTotal h) (v : sortedmap_t Obj)
    (hv : Sorted h v) (key value : Obj) (d : Option Obj) :
    SortedMap.getitem h (SortedMap.setitem h v key value).1 key d = .ok value := by
  obtain ⟨L, y, R, hLR, hp, hy, hval, -, -⟩ := setitem_view hs v hv key value
  rw [hLR, (eval_present h L R y key hp hy value d).1, hval]

/-- On a sorted vector `contains` tells whether some stored key equals `key`. -/
theorem contains_iff_hasKey {h : Host Obj} (hs : StrictTotal h) (v : sortedmap_t Obj)
    (hv : Sorted h v) (key : Obj) : SortedMap.contains h v key = true ↔ hasKey h v key := by
  rcases locate_hasKey hs v hv key with
    ⟨hn, L, R, hLR, hp, -, -, hRk⟩ | ⟨hk, L, y, R, hLR, hp, hy, -, -, -⟩
  · subst hLR
    rw [(eval_absent h L R key hp hRk key none).2.2.2.1]
    exact ⟨fun hc => absurd hc Bool.false_ne_true, fun hk => absurd hk hn⟩
  · subst hLR
    rw [(eval_present h L R y key hp hy key none).2.2.2.1]
    exact ⟨fun _ => hk, fun _ => rfl⟩

theorem ltOnlyHost_lt_eq : ∀ a b : Nat, ltOnlyHost.lt a b = aliasHost.lt a b :=
  fun _ _ => rfl

/-- When `==` agrees with a strict total order, a stored key equal to `k` is not
equal to a key `k2` that is not equal to `k`. -/
theorem key_equals_transfer {h : Host Obj} (hs : StrictTotal h) (y : MapItem Obj)
    (k k2 : Obj) (hy : y.key_equals h k = true) (hne : h.eq k k2 = false) :
    y.key_equals h k2 = false := by
  rw [key_equals_eq_eq hs] at hy ⊢
  cases hy2 : h.eq y.m_key k2 with
  | false => rfl
  | true =>
    have h1 := (hs.eq_iff _ _).1 hy
    have h2 := (hs.eq_iff _ _).1 hy2
    have hkk : h.eq k k2 = true := by
      apply (hs.eq_iff _ _).2
      constructor
      · cases hlt : h.lt k k2 with
        | false => rfl
        | true =>
          rcases hs.cotrans k k2 y.m_key hlt with hc | hc
          · rw [h1.2] at hc
            exact absurd hc Bool.false_ne_true
          · rw [h2.1] at hc
            exact absurd hc Bool.false_ne_true
      · cases hlt : h.lt k2 k with
        | false => rfl
        | true =>
          rcases hs.cotrans k2 k y.m_key hlt with hc | hc
          · rw [h2.2] at hc
            exact absurd hc Bool.false_ne_true
          · rw [h1.1] at hc
            exact absurd hc Bool.false_ne_true
    rw [hne] at hkk
    exact absurd hkk Bool.false_ne_true

theorem findKey_skip (h : Host Obj) (L R : sortedmap_t Obj) (y : MapItem Obj) (key : Obj)
    (hy : y.key_equals h key = false) :
    findKey h (L ++ y :: R) key = findKey h (L ++ R) key := by
  unfold findKey
  simp [List.find?_append, List.find?_cons, hy]

/-- On a sorted vector the lookup returns the value of the stored entry whose key
equals `key`, and `contains` tells whether there is one. -/
theorem getitem_eq_findKey {h : Host Obj} (hs : StrictTotal h) (v : sortedmap_t Obj)
    (hv : Sorted h v) (key : Obj) (d : Option Obj) :
    SortedMap.getitem h v key d
        = (match findKey h v key with
          | some y => .ok y.m_value
          | none =>
            match d with
            | some dv => .ok dv
            | none => .error (SortedMap.lookup_fail h key)) ∧
      SortedMap.contains h v key = (findKey h v key).isSome := by
  rcases locate_hasKey hs v hv key with
    ⟨-, L, R, hLR, hp, hL, -, hRk⟩ | ⟨-, L, y, R, hLR, hp, hy, hL, -, -⟩
  · subst hLR
    have hev := eval_absent h L R key hp hRk key d
    have hfind : findKey h (L ++ R) key = none := by
      unfold findKey
      rw [List.find?_eq_none]
      intro x hx
      rcases List.mem_append.1 hx with hx | hx
      · rw [key_equals_false_of_lt hs x key (hL x hx)]
        exact Bool.false_ne_true
      · rw [hRk x hx]
        exact Bool.false_ne_true
    rw [hev.1, hev.2.2.2.1, hfind]
    exact ⟨rfl, rfl⟩
  · subst hLR
    have hev := eval_present h L R y key hp hy key d
    have hfind : findKey h (L ++ y :: R) key = some y := by
      unfold findKey
      have hLnone : L.find? (fun item => item.key_equals h key) = none := by
        rw [List.find?_eq_none]
        intro x hx
        rw [key_equals_false_of_lt hs x key (hL x hx)]
        exact Bool.false_ne_true
      simp [List.find?_append, hLnone, List.find?_cons, hy]
    rw [hev.1, hev.2.2.2.1, hfind]
    exact ⟨rfl, rfl⟩

/-- Setting `k` does not change which stored entry has a key equal to another
key `k2`. -/
theorem findKey_setitem {h : Host Obj} (hs : StrictTotal h) (v : sortedmap_t Obj)
    (hv : Sorted h v) (k value k2 : Obj) (hne : h.eq k k2 = false) :
    findKey h (SortedMap.setitem h v k value).1 k2 = findKey h v k2 := by
  obtain ⟨L, y, R, hLR, -, hy, -, -, hv0⟩ := setitem_view hs v hv k value
  have hy2 := key_equals_transfer hs y k k2 hy hne
  rw [hLR, findKey_skip h L R y k2 hy2]
  rcases hv0 with hv0 | ⟨y0, hv0, hkey⟩
  · rw [hv0]
  · have hy0 : y0.key_equals h k2 = false := by
      unfold MapItem.key_equals at hy2 ⊢
      rw [hkey]
      exact hy2
    rw [hv0, findKey_skip h L R y0 k2 hy0]

/-- Deleting `k` does not change which stored entry has a key equal to another
key `k2`. -/
theorem findKey_delitem {h : Host Obj} (hs : StrictTotal h) (v : sortedmap_t Obj)
    (hv : Sorted h v) (k k2 : Obj) (hne : h.eq k k2 = false) :
    findKey h (SortedMap.delitem h v k).1 k2 = findKey h v k2 ∧
      (SortedMap.pop h v k none).1 = (SortedMap.delitem h v k).1 := by
  rcases locate_hasKey hs v hv k with
    ⟨-, L, R, hLR, hp, -, -, hRk⟩ | ⟨-, L, y, R, hLR, hp, hy, -, -, -⟩
  · subst hLR
    have hev := eval_absent h L R k hp hRk k none
    rw [hev.2.2.1, hev.2.2.2.2]
    exact ⟨rfl, rfl⟩
  · subst hLR
    have hev := eval_present h L R y k hp hy k none
    rw [hev.2.2.1, hev.2.2.2.2]
    exact ⟨(findKey_skip h L R y k2 (key_equals_transfer hs y k k2 hy hne)).symm, rfl⟩

/-- Two sorted vectors with the same entry for `key` answer the lookups of `key`
alike. -/
theorem lookup_same {h : Host Obj} (hs : StrictTotal h) (v w : sortedmap_t Obj)
    (hv : Sorted h v) (hw : Sorted h w) (key : Obj)
    (hf : findKey h w key = findKey h v key) (d : Option Obj) :
    SortedMap.getitem h w key d = SortedMap.getitem h v key d ∧
      SortedMap.contains h w key = SortedMap.contains h v key := by
  rw [(getitem_eq_findKey hs v hv key d).1, (getitem_eq_findKey hs w hw key d).1,
    (getitem_eq_findKey hs v hv key d).2, (getitem_eq_findKey hs w hw key d).2, hf]
  exact ⟨rfl, rfl⟩

theorem natHost_strictTotal : StrictTotal natHost where
  irrefl a := by simp [Host.lt, natHost]
  trans a b c := by
    simp only [Host.lt, natHost, decide_eq_true_eq]
    omega
  cotrans a b c := by
    simp only [Host.lt, natHost, decide_eq_true_eq]
    omega
  eq_iff a b := by
    simp only [Host.lt, Host.eq, natHost, decide_eq_true_eq, decide_eq_false_iff_not]
    omega

theorem aliasHost_strictTotal : StrictTotal aliasHost where
  irrefl a := by simp [Host.lt, aliasHost]
  trans a b c := by
    simp only [Host.lt, aliasHost, decide_eq_true_eq]
    omega
  cotrans a b c := by
    simp only [Host.lt, aliasHost, decide_eq_true_eq]
    omega
  eq_iff a b := by
    simp only [Host.lt, Host.eq, aliasHost, decide_eq_true_eq, decide_eq_false_iff_not]
    omega

theorem strHost_strictTotal : StrictTotal strHost where
  irrefl a := by simp [Host.lt, strHost]
  trans a b c := by
    simp only [Host.lt, strHost, decide_eq_true_eq]
    omega
  cotrans a b c := by
    simp only [Host.lt, strHost, decide_eq_true_eq]
    omega
  eq_iff a b := by
    simp only [Host.lt, Host.eq, strHost, decide_eq_true_eq, decide_eq_false_iff_not]
    omega

end SortedFacts

/-! ## The release of the old entries in `clear` -/

section ReleaseFacts

variable {Obj : Type}

theorem released_cons (item : MapItem Obj) (rest : sortedmap_t Obj) :
    released (item :: rest) = item.m_value :: item.m_key :: released rest := by
  simp [released]

theorem released_length (old : sortedmap_t Obj) : (released old).length = 2 * old.length := by
  induction old with
  | nil => rfl
  | cons item rest ih =>
    rw [released_cons]
    simp only [List.length_cons, ih]
    omega

/-- The destructor of the vector drops the references of `released old` one by
one: the vector at the end is the fold of the release behaviour over them and
the vectors found are those of `observe`. -/
theorem vec_destroy_eq (rel : Obj → sortedmap_t Obj → sortedmap_t Obj)
    (old m : sortedmap_t Obj) :
    vec_destroy rel old m
      = ((released old).foldl (fun acc o => rel o acc) m, observe rel (released old) m) := by
  induction old generalizing m with
  | nil => rfl
  | cons item rest ih =>
    rw [released_cons]
    simp only [vec_destroy, MapItem.destroy, ih, List.foldl_cons, observe]
    rfl

theorem observe_length (rel : Obj → sortedmap_t Obj → sortedmap_t Obj) (os : List Obj)
    (m : sortedmap_t Obj) : (observe rel os m).length = os.length := by
  induction os generalizing m with
  | nil => rfl
  | cons o os ih => simp [observe, ih]

/-- The release number `i` finds the fold of the release behaviour over the
`i` references dropped before it. -/
theorem observe_getElem? (rel : Obj → sortedmap_t Obj → sortedmap_t Obj) (os : List Obj)
    (m : sortedmap_t Obj) (i : Nat) (x : sortedmap_t Obj)
    (hx : (observe rel os m)[i]? = some x) :
    x = (os.take i).foldl (fun acc o => rel o acc) m := by
  induction os generalizing m i with
  | nil => simp [observe] at hx
  | cons o os ih =>
    cases i with
    | zero =>
      simp only [observe, List.getElem?_cons_zero, Option.some.injEq] at hx
      simp [hx]
    | succ i =>
      simp only [observe, List.getElem?_cons_succ] at hx
      simpa using ih (rel o m) i hx

/-- When no released object stores into the empty map, every release finds the
empty vector and the vector is empty at the end. -/
theorem observe_all_nil (rel : Obj → sortedmap_t Obj → sortedmap_t Obj) (os : List Obj)
    (hrel : ∀ o ∈ os, rel o [] = []) :
    os.foldl (fun acc o => rel o acc) [] = [] ∧ ∀ x ∈ observe rel os [], x = [] := by
  induction os with
  | nil => simp [observe]
  | cons o os ih =>
    have ho := hrel o (List.mem_cons_self _ _)
    have ih2 := ih fun a ha => hrel a (List.mem_cons_of_mem _ ha)
    simp only [List.foldl_cons, observe, ho, List.mem_cons]
    refine ⟨ih2.1, ?_⟩
    rintro x (hx | hx)
    · exact hx
    · exact ih2.2 x hx

end ReleaseFacts

/-! ## The claims -/

section Claims

variable {Obj : Type} [DecidableEq Obj]

/-- Claim C1 (sortedness).  Under a strict total order on keys with `==` agreeing
with it, after any sequence of set, delete and pop calls on a new map the list
returned by `keys()` is strictly ascending and no two of its keys are equal; and
each of `setitem`, `delitem`, `pop` (with or without a default) and the pop
method turns a strictly ascending vector into a strictly ascending vector. -/
theorem C1_sortedness (h : Host Obj) (hs : StrictTotal h) (ops : List (Op Obj))
    (v : sortedmap_t Obj) (hv : Sorted h v) (key value : Obj) (d : Option Obj)
    (args : List Obj) :
    Ascending h (SortedMap_keys (run h ops SortedMap_new)) ∧
      (SortedMap_keys (run h ops SortedMap_new)).Pairwise
        (fun a b => h.eq a b = false ∧ a ≠ b) ∧
      Sorted h (SortedMap.setitem h v key value).1 ∧
      Sorted h (SortedMap.delitem h v key).1 ∧
      Sorted h (SortedMap.pop h v key d).1 ∧
      Sorted h (SortedMap_pop h v args).1 := by
  have hnew : Sorted h (SortedMap_new : sortedmap_t Obj) := by
    simp [Sorted, Ascending, SortedMap_new, SortedMap.keys]
  have hrun : Ascending h (SortedMap_keys (run h ops SortedMap_new)) :=
    sorted_run hs ops _ hnew
  exact ⟨hrun, ascending_distinct hs _ hrun, sorted_setitem hs v hv key value,
    sorted_delitem hs v hv key, sorted_pop hs v hv key d, sorted_SortedMap_pop hs v hv args⟩

/-- Witness of C1: keys 5, 1, 3 are set, 1 is popped, 9 is deleted (and fails)
and 3 is popped with a default; separately a three-entry vector is updated. -/
theorem C1_sortedness_witness :
    StrictTotal natHost ∧ Sorted natHost [⟨1, 10⟩, ⟨3, 30⟩, ⟨5, 50⟩] ∧
      (Ascending natHost
          (SortedMap_keys (run natHost
            [Op.set 5 50, Op.set 1 10, Op.set 3 30, Op.pop [1], Op.delete 9, Op.pop [3, 7]]
            SortedMap_new)) ∧
        (SortedMap_keys (run natHost
            [Op.set 5 50, Op.set 1 10, Op.set 3 30, Op.pop [1], Op.delete 9, Op.pop [3, 7]]
            SortedMap_new)).Pairwise
          (fun a b => natHost.eq a b = false ∧ a ≠ b) ∧
        Sorted natHost (SortedMap.setitem natHost [⟨1, 10⟩, ⟨3, 30⟩, ⟨5, 50⟩] 4 40).1 ∧
        Sorted natHost (SortedMap.delitem natHost [⟨1, 10⟩, ⟨3, 30⟩, ⟨5, 50⟩] 4).1 ∧
        Sorted natHost (SortedMap.pop natHost [⟨1, 10⟩, ⟨3, 30⟩, ⟨5, 50⟩] 4 (some 0)).1 ∧
        Sorted natHost (SortedMap_pop natHost [⟨1, 10⟩, ⟨3, 30⟩, ⟨5, 50⟩] [3]).1) :=
  ⟨natHost_strictTotal, by decide,
    C1_sortedness natHost natHost_strictTotal
      [Op.set 5 50, Op.set 1 10, Op.set 3 30, Op.pop [1], Op.delete 9, Op.pop [3, 7]]
      [⟨1, 10⟩, ⟨3, 30⟩, ⟨5, 50⟩] (by decide) 4 40 (some 0) [3]⟩

/-- Claim C2 (round trip).  On a strictly ascending vector under a strict total
order, after `set(k, v)` the lookups `m[k]`, `m.get(k)` and `m.get(k, d)` all
return the stored reference `v`, whether or not `k` was there before. -/
theorem C2_round_trip (h : Host Obj) (hs : StrictTotal h) (v : sortedmap_t Obj)
    (hv : Sorted h v) (key value d : Obj) :
    SortedMap_subscript h (SortedMap_ass_subscript h v key (some value)).1 key = .ok value ∧
      SortedMap_get h (SortedMap_ass_subscript h v key (some value)).1 [key] = .ok value ∧
      SortedMap_get h (SortedMap_ass_subscript h v key (some value)).1 [key, d] = .ok value :=
  ⟨getitem_setitem hs v hv key value none,
    getitem_setitem hs v hv key value (some h.Py_None),
    getitem_setitem hs v hv key value (some d)⟩

/-- Witness of C2: key 3 is set once where it is absent (the vector keeps 1 and
5) and the lookups return the stored 30. -/
theorem C2_round_trip_witness :
    StrictTotal natHost ∧ Sorted natHost [⟨1, 10⟩, ⟨5, 50⟩] ∧
      (SortedMap_subscript natHost
          (SortedMap_ass_subscript natHost [⟨1, 10⟩, ⟨5, 50⟩] 3 (some 30)).1 3 = .ok 30 ∧
        SortedMap_get natHost
          (SortedMap_ass_subscript natHost [⟨1, 10⟩, ⟨5, 50⟩] 3 (some 30)).1 [3] = .ok 30 ∧
        SortedMap_get natHost
          (SortedMap_ass_subscript natHost [⟨1, 10⟩, ⟨5, 50⟩] 3 (some 30)).1 [3, 7] = .ok 30) :=
  ⟨natHost_strictTotal, by decide,
    C2_round_trip natHost natHost_strictTotal [⟨1, 10⟩, ⟨5, 50⟩] (by decide) 3 30 7⟩

/-- Claim C3 (overwrite).  On a sorted vector, after `set(k, v1)` and then
`set(k, v2)` the lookups of `k` return `v2`, and `len()` after the second set is
`len()` before it. -/
theorem C3_overwrite (h : Host Obj) (hs : StrictTotal h) (v : sortedmap_t Obj)
    (hv : Sorted h v) (key v1 v2 d : Obj) :
    SortedMap_subscript h
        (SortedMap.setitem h (SortedMap.setitem h v key v1).1 key v2).1 key = .ok v2 ∧
      SortedMap_get h
        (SortedMap.setitem h (SortedMap.setitem h v key v1).1 key v2).1 [key] = .ok v2 ∧
      SortedMap_get h
        (SortedMap.setitem h (SortedMap.setitem h v key v1).1 key v2).1 [key, d] = .ok v2 ∧
      SortedMap_length (SortedMap.setitem h (SortedMap.setitem h v key v1).1 key v2).1
        = SortedMap_length (SortedMap.setitem h v key v1).1 := by
  have h1 := sorted_setitem hs v hv key v1
  refine ⟨getitem_setitem hs _ h1 key v2 none, getitem_setitem hs _ h1 key v2 (some h.Py_None),
    getitem_setitem hs _ h1 key v2 (some d), ?_⟩
  obtain ⟨L, y, R, hLR, hp, hy, -, -, -⟩ := setitem_view hs v hv key v1
  rw [hLR, (eval_present h L R y key hp hy v2 none).2.1]
  simp [SortedMap_length]

/-- Witness of C3: key 3 is set to 30 and then to 31 in a vector holding 1 and 5. -/
theorem C3_overwrite_witness :
    StrictTotal natHost ∧ Sorted natHost [⟨1, 10⟩, ⟨5, 50⟩] ∧
      (SortedMap_subscript natHost
          (SortedMap.setitem natHost
            (SortedMap.setitem natHost [⟨1, 10⟩, ⟨5, 50⟩] 3 30).1 3 31).1 3 = .ok 31 ∧
        SortedMap_get natHost
          (SortedMap.setitem natHost
            (SortedMap.setitem natHost [⟨1, 10⟩, ⟨5, 50⟩] 3 30).1 3 31).1 [3] = .ok 31 ∧
        SortedMap_get natHost
          (SortedMap.setitem natHost
            (SortedMap.setitem natHost [⟨1, 10⟩, ⟨5, 50⟩] 3 30).1 3 31).1 [3, 7] = .ok 31 ∧
        SortedMap_length
          (SortedMap.setitem natHost
            (SortedMap.setitem natHost [⟨1, 10⟩, ⟨5, 50⟩] 3 30).1 3 31).1
          = SortedMap_length (SortedMap.setitem natHost [⟨1, 10⟩, ⟨5, 50⟩] 3 30).1) :=
  ⟨natHost_strictTotal, by decide,
    C3_overwrite natHost natHost_strictTotal [⟨1, 10⟩, ⟨5, 50⟩] (by decide) 3 30 31 7⟩

/-- Counterexample to C4 as stated: the key is object 100, on which `str` raises.
After set and delete the second delete returns -1, but the exception left
pending is the one raised by `str`, not a `KeyError`. -/
theorem C4_counterexample :
    StrictTotal strHost ∧ Sorted strHost [] ∧
      SortedMap.delitem strHost
          (SortedMap.delitem strHost (SortedMap.setitem strHost [] 100 1).1 100).1 100
        = ([], -1, some (PyErr.StrFailure 100)) ∧
      (SortedMap.delitem strHost
          (SortedMap.delitem strHost (SortedMap.setitem strHost [] 100 1).1 100).1 100).2.2
        ≠ some (PyErr.KeyError 100) :=
  ⟨strHost_strictTotal, by decide, by rfl, by decide⟩

/-- Claim C4 (deletion), amended.  On a sorted vector, after `set(k, v)` the call
`delete(k)` succeeds, after it `contains(k)` is false, and a second `delete(k)`
returns -1 and leaves the vector as it is, with an exception pending: the
`KeyError` of `k` when `str(k)` succeeds, and otherwise what `str(k)` raised. -/
theorem C4_deletion (h : Host Obj) (hs : StrictTotal h) (v : sortedmap_t Obj)
    (hv : Sorted h v) (key value : Obj) :
    (SortedMap.delitem h (SortedMap.setitem h v key value).1 key).2 = (0, none) ∧
      SortedMap.contains h
        (SortedMap.delitem h (SortedMap.setitem h v key value).1 key).1 key = false ∧
      SortedMap.delitem h (SortedMap.delitem h (SortedMap.setitem h v key value).1 key).1 key
        = ((SortedMap.delitem h (SortedMap.setitem h v key value).1 key).1, -1,
            some (if h.PyObject_Str key = true then PyErr.KeyError key
              else PyErr.StrFailure key)) := by
  obtain ⟨L, y, R, hLR, hp, hy, -, hne, -⟩ := setitem_view hs v hv key value
  rw [hLR, (eval_present h L R y key hp hy value none).2.2.1]
  have hn : ¬ hasKey h (L ++ R) key := by
    rintro ⟨x, hx, hxk⟩
    rw [hne x hx] at hxk
    exact absurd hxk Bool.false_ne_true
  obtain ⟨L2, R2, hLR2, hp2, hR2⟩ := absent_view h (L ++ R) key hn
  have hev := eval_absent h L2 R2 key hp2 hR2 value none
  rw [← hLR2] at hev
  exact ⟨rfl, hev.2.2.2.1, hev.2.2.1⟩

/-- Witness of C4 amended: key 3 is set, deleted and deleted again in a vector
holding 1 and 5. -/
theorem C4_deletion_witness :
    StrictTotal natHost ∧ Sorted natHost [⟨1, 10⟩, ⟨5, 50⟩] ∧
      ((SortedMap.delitem natHost
          (SortedMap.setitem natHost [⟨1, 10⟩, ⟨5, 50⟩] 3 30).1 3).2 = (0, none) ∧
        SortedMap.contains natHost
          (SortedMap.delitem natHost
            (SortedMap.setitem natHost [⟨1, 10⟩, ⟨5, 50⟩] 3 30).1 3).1 3 = false ∧
        SortedMap.delitem natHost
            (SortedMap.delitem natHost
              (SortedMap.setitem natHost [⟨1, 10⟩, ⟨5, 50⟩] 3 30).1 3).1 3
          = ((SortedMap.delitem natHost
                (SortedMap.setitem natHost [⟨1, 10⟩, ⟨5, 50⟩] 3 30).1 3).1, -1,
              some (if natHost.PyObject_Str 3 = true then PyErr.KeyError 3
                else PyErr.StrFailure 3))) :=
  ⟨natHost_strictTotal, by decide,
    C4_deletion natHost natHost_strictTotal [⟨1, 10⟩, ⟨5, 50⟩] (by decide) 3 30⟩

/-- Claim C5 (default fallback).  When no stored key equals `k`, `get(k, D)`
returns `D`, and `pop(k, D)` returns `D` and leaves the vector, hence `len()`,
as it was.  The vector need not even be sorted. -/
theorem C5_default_fallback (h : Host Obj) (v : sortedmap_t Obj) (key D : Obj)
    (hn : ¬ hasKey h v key) :
    SortedMap_get h v [key, D] = .ok D ∧
      SortedMap_pop h v [key, D] = (v, .ok D) ∧
      SortedMap_length (SortedMap_pop h v [key, D]).1 = SortedMap_length v := by
  obtain ⟨L, R, hLR, hp, hR⟩ := absent_view h v key hn
  have hev := (eval_absent h L R key hp hR key (some D)).1
  rw [← hLR] at hev
  rw [SortedMap_get_two, SortedMap_pop_two, hev]
  exact ⟨rfl, rfl, rfl⟩

/-- Witness of C5: key 9 is missing from a vector holding 1, 3 and 5. -/
theorem C5_default_fallback_witness :
    ¬ hasKey natHost [⟨1, 10⟩, ⟨3, 30⟩, ⟨5, 50⟩] 9 ∧
      (SortedMap_get natHost [⟨1, 10⟩, ⟨3, 30⟩, ⟨5, 50⟩] [9, 7] = .ok 7 ∧
        SortedMap_pop natHost [⟨1, 10⟩, ⟨3, 30⟩, ⟨5, 50⟩] [9, 7]
          = ([⟨1, 10⟩, ⟨3, 30⟩, ⟨5, 50⟩], .ok 7) ∧
        SortedMap_length (SortedMap_pop natHost [⟨1, 10⟩, ⟨3, 30⟩, ⟨5, 50⟩] [9, 7]).1
          = SortedMap_length ([⟨1, 10⟩, ⟨3, 30⟩, ⟨5, 50⟩] : sortedmap_t Nat)) :=
  ⟨by decide, C5_default_fallback natHost [⟨1, 10⟩, ⟨3, 30⟩, ⟨5, 50⟩] 9 7 (by decide)⟩

/-- Counterexample to C6 as stated: `get(5)` with one argument on a sorted map
that holds only key 1 returns `None`; it does not fail with a `KeyError`. -/
theorem C6_counterexample :
    StrictTotal natHost ∧ Sorted natHost [⟨1, 10⟩] ∧ ¬ hasKey natHost [⟨1, 10⟩] 5 ∧
      SortedMap_get natHost [⟨1, 10⟩] [5] = .ok natHost.Py_None ∧
      SortedMap_get natHost [⟨1, 10⟩] [5] ≠ .error (PyErr.KeyError 5) :=
  ⟨natHost_strictTotal, by decide, by decide, by rfl, by
    intro hc
    have hok : SortedMap_get natHost [⟨1, 10⟩] [5] = .ok natHost.Py_None := by rfl
    rw [hok] at hc
    cases hc⟩

/-- Claim C6, amended.  The get method with one argument never fails on a sorted
map: when no stored key equals `k` it returns `None`, exactly as `get(k, None)`
does, and when a stored key equals `k` it returns the value stored with it.  It
is the subscript lookup `m[k]` that fails on a missing key. -/
theorem C6_get_one_argument (h : Host Obj) (hs : StrictTotal h) (v : sortedmap_t Obj)
    (hv : Sorted h v) (key : Obj) :
    SortedMap_get h v [key] = SortedMap_get h v [key, h.Py_None] ∧
      (¬ hasKey h v key →
        SortedMap_get h v [key] = .ok h.Py_None ∧
          SortedMap_subscript h v key = .error (SortedMap.lookup_fail h key)) ∧
      (hasKey h v key →
        ∃ y ∈ v, y.key_equals h key = true ∧ SortedMap_get h v [key] = .ok y.m_value) := by
  refine ⟨rfl, ?_, ?_⟩
  · intro hn
    obtain ⟨L, R, hLR, hp, hR⟩ := absent_view h v key hn
    have h1 := (eval_absent h L R key hp hR key (some h.Py_None)).1
    have h2 := (eval_absent h L R key hp hR key none).1
    rw [← hLR] at h1 h2
    exact ⟨h1, h2⟩
  · intro hk
    obtain ⟨L, y, R, hLR, hp, hy, -⟩ := present_view hs v hv key hk
    have h1 := (eval_present h L R y key hp hy key (some h.Py_None)).1
    rw [← hLR] at h1
    exact ⟨y, by rw [hLR]; simp, hy, h1⟩

/-- Witness of C6 amended: key 5 is missing from, and key 1 is in, the vector
holding only 1. -/
theorem C6_get_one_argument_witness :
    StrictTotal natHost ∧ Sorted natHost [⟨1, 10⟩] ∧
      (SortedMap_get natHost [⟨1, 10⟩] [5] = SortedMap_get natHost [⟨1, 10⟩] [5, natHost.Py_None] ∧
        (¬ hasKey natHost [⟨1, 10⟩] 5 →
          SortedMap_get natHost [⟨1, 10⟩] [5] = .ok natHost.Py_None ∧
            SortedMap_subscript natHost [⟨1, 10⟩] 5
              = .error (SortedMap.lookup_fail natHost 5)) ∧
        (hasKey natHost [⟨1, 10⟩] 5 →
          ∃ y ∈ ([⟨1, 10⟩] : sortedmap_t Nat), y.key_equals natHost 5 = true ∧
            SortedMap_get natHost [⟨1, 10⟩] [5] = .ok y.m_value)) :=
  ⟨natHost_strictTotal, by decide,
    C6_get_one_argument natHost natHost_strictTotal [⟨1, 10⟩] (by decide) 5⟩

/-- Claim C7 (removal of a present key).  On a sorted vector with a stored key
equal to `k` the vector is `L ++ y :: R` where `y` is the only entry whose key
equals `k`; `delete(k)` returns 0 with no exception and leaves `L ++ R`, so
`len()` drops by one, and `pop(k)` leaves the same `L ++ R` and returns the
value that `m[k]` and `get(k)` return before the call. -/
theorem C7_removal (h : Host Obj) (hs : StrictTotal h) (v : sortedmap_t Obj)
    (hv : Sorted h v) (key : Obj) (hk : hasKey h v key) :
    ∃ L y R, v = L ++ y :: R ∧ y.key_equals h key = true ∧
      (∀ x ∈ L ++ R, x.key_equals h key = false) ∧
      SortedMap.delitem h v key = (L ++ R, 0, none) ∧
      SortedMap_ass_subscript h v key none = (L ++ R, 0, none) ∧
      SortedMap_pop h v [key] = (L ++ R, .ok y.m_value) ∧
      SortedMap_subscript h v key = .ok y.m_value ∧
      SortedMap_get h v [key] = .ok y.m_value ∧
      SortedMap_length (L ++ R) + 1 = SortedMap_length v := by
  obtain ⟨L, y, R, hLR, hp, hy, hne⟩ := present_view hs v hv key hk
  subst hLR
  have e1 := eval_present h L R y key hp hy key none
  have e2 := eval_present h L R y key hp hy key (some h.Py_None)
  refine ⟨L, y, R, rfl, hy, hne, e1.2.2.1, e1.2.2.1, ?_, e1.1, ?_, ?_⟩
  · rw [SortedMap_pop_one]
    exact e1.2.2.2.2
  · rw [SortedMap_get_one]
    exact e2.1
  · simp only [SortedMap_length, List.length_append, List.length_cons]
    push_cast
    omega

/-- Witness of C7: key 3 is removed from a vector holding 1, 3 and 5. -/
theorem C7_removal_witness :
    StrictTotal natHost ∧ Sorted natHost [⟨1, 10⟩, ⟨3, 30⟩, ⟨5, 50⟩] ∧
      hasKey natHost [⟨1, 10⟩, ⟨3, 30⟩, ⟨5, 50⟩] 3 ∧
      ∃ L y R, ([⟨1, 10⟩, ⟨3, 30⟩, ⟨5, 50⟩] : sortedmap_t Nat) = L ++ y :: R ∧
        y.key_equals natHost 3 = true ∧
        (∀ x ∈ L ++ R, x.key_equals natHost 3 = false) ∧
        SortedMap.delitem natHost [⟨1, 10⟩, ⟨3, 30⟩, ⟨5, 50⟩] 3 = (L ++ R, 0, none) ∧
        SortedMap_ass_subscript natHost [⟨1, 10⟩, ⟨3, 30⟩, ⟨5, 50⟩] 3 none
          = (L ++ R, 0, none) ∧
        SortedMap_pop natHost [⟨1, 10⟩, ⟨3, 30⟩, ⟨5, 50⟩] [3] = (L ++ R, .ok y.m_value) ∧
        SortedMap_subscript natHost [⟨1, 10⟩, ⟨3, 30⟩, ⟨5, 50⟩] 3 = .ok y.m_value ∧
        SortedMap_get natHost [⟨1, 10⟩, ⟨3, 30⟩, ⟨5, 50⟩] [3] = .ok y.m_value ∧
        SortedMap_length (L ++ R) + 1
          = SortedMap_length ([⟨1, 10⟩, ⟨3, 30⟩, ⟨5, 50⟩] : sortedmap_t Nat) :=
  ⟨natHost_strictTotal, by decide, by decide,
    C7_removal natHost natHost_strictTotal [⟨1, 10⟩, ⟨3, 30⟩, ⟨5, 50⟩] (by decide) 3
      (by decide)⟩

/-- Claim C8, the code at the failing input.  On the sorted map holding 1, 3 and 5
the call `pop(3, 7)` returns the stored 30 and removes nothing: the vector is
unchanged, `contains(3)` is still true and `len()` is still 3.  The sibling
paths do remove: `pop(3)` with one argument, and `SortedMap::pop` given the
default, both leave the vector holding 1 and 5. -/
theorem C8_pop_with_default_keeps_entry :
    StrictTotal natHost ∧ Sorted natHost [⟨1, 10⟩, ⟨3, 30⟩, ⟨5, 50⟩] ∧
      hasKey natHost [⟨1, 10⟩, ⟨3, 30⟩, ⟨5, 50⟩] 3 ∧
      SortedMap_pop natHost [⟨1, 10⟩, ⟨3, 30⟩, ⟨5, 50⟩] [3, 7]
        = ([⟨1, 10⟩, ⟨3, 30⟩, ⟨5, 50⟩], .ok 30) ∧
      SortedMap_contains natHost
        (SortedMap_pop natHost [⟨1, 10⟩, ⟨3, 30⟩, ⟨5, 50⟩] [3, 7]).1 3 = true ∧
      SortedMap_length (SortedMap_pop natHost [⟨1, 10⟩, ⟨3, 30⟩, ⟨5, 50⟩] [3, 7]).1 = 3 ∧
      SortedMap_pop natHost [⟨1, 10⟩, ⟨3, 30⟩, ⟨5, 50⟩] [3]
        = ([⟨1, 10⟩, ⟨5, 50⟩], .ok 30) ∧
      SortedMap.pop natHost [⟨1, 10⟩, ⟨3, 30⟩, ⟨5, 50⟩] 3 (some 7)
        = ([⟨1, 10⟩, ⟨5, 50⟩], .ok 30) :=
  ⟨natHost_strictTotal, by decide, by decide, by rfl, by rfl, by rfl, by rfl, by rfl⟩

/-- Claim C9 (insert of a new key).  On a sorted vector with no stored key equal
to `k`, `set(k, v)` returns 0 and puts the one entry `(k, v)` at the lower bound
`p` of `k`, between the first `p` entries and the rest: `len()` grows by one,
`p` is still the lower bound of `k`, and erasing position `p`, or deleting `k`,
gives back the vector as it was.  The position `p` is the number `c` of stored
keys less than `k`: the `c` entries in front of `(k, v)` have keys less than
`k`, the entries behind it have keys greater than `k`, and the vector is
sorted afterwards. -/
theorem C9_insert_new_key (h : Host Obj) (hs : StrictTotal h) (v : sortedmap_t Obj)
    (hv : Sorted h v) (key value : Obj) (hn : ¬ hasKey h v key) :
    (SortedMap.setitem h v key value).2 = 0 ∧
      (SortedMap.setitem h v key value).1
        = v.take (lower_bound (MapItem.CompLess h) v key) ++ MapItem.mk key value ::
            v.drop (lower_bound (MapItem.CompLess h) v key) ∧
      SortedMap_length (SortedMap.setitem h v key value).1 = SortedMap_length v + 1 ∧
      (SortedMap.setitem h v key value).1[lower_bound (MapItem.CompLess h) v key]?
        = some (MapItem.mk key value) ∧
      lower_bound (MapItem.CompLess h) (SortedMap.setitem h v key value).1 key
        = lower_bound (MapItem.CompLess h) v key ∧
      vec_erase (SortedMap.setitem h v key value).1 (lower_bound (MapItem.CompLess h) v key)
        = v ∧
      SortedMap.delitem h (SortedMap.setitem h v key value).1 key = (v, 0, none) ∧
      lower_bound (MapItem.CompLess h) v key
        = (v.filter fun x => h.lt x.m_key key).length ∧
      (SortedMap.setitem h v key value).1
        = v.take (v.filter fun x => h.lt x.m_key key).length ++ MapItem.mk key value ::
            v.drop (v.filter fun x => h.lt x.m_key key).length ∧
      (SortedMap.setitem h v key value).1[(v.filter fun x => h.lt x.m_key key).length]?
        = some (MapItem.mk key value) ∧
      (∀ x ∈ v.take (v.filter fun x => h.lt x.m_key key).length,
        h.lt x.m_key key = true) ∧
      (∀ x ∈ v.drop (v.filter fun x => h.lt x.m_key key).length,
        h.lt key x.m_key = true) ∧
      Sorted h (SortedMap.setitem h v key value).1 := by
  rcases locate_hasKey hs v hv key with ⟨-, L, R, hLR, hp, hL, hR, hRk⟩ | ⟨hk, -⟩
  · have hsorted := sorted_setitem hs v hv key value
    subst hLR
    have hself : (MapItem.mk key value).key_equals h key = true := by
      simp [MapItem.key_equals]
    have hp2 := lower_bound_mid hs L R (MapItem.mk key value) key hL hself hR
    have hfL : (L.filter fun x => h.lt x.m_key key) = L :=
      List.filter_eq_self.2 hL
    have hfR : (R.filter fun x => h.lt x.m_key key) = [] :=
      List.filter_eq_nil_iff.2 fun x hx => by
        rw [hs.asymm (hR x hx)]
        exact Bool.false_ne_true
    have hcount : ((L ++ R).filter fun x => h.lt x.m_key key).length = L.length := by
      rw [List.filter_append, hfL, hfR, List.append_nil]
    rw [(eval_absent h L R key hp hRk value none).2.1] at hsorted ⊢
    rw [hp, hcount, List.take_left, List.drop_left]
    refine ⟨rfl, rfl, ?_, ?_, hp2, vec_erase_at_length L R _, ?_, rfl, rfl, ?_, hL, hR,
      hsorted⟩
    · simp only [SortedMap_length, List.length_append, List.length_cons]
      push_cast
      omega
    · rw [getElem?_at_length]
      rfl
    · exact (eval_present h L R _ key hp2 hself value none).2.2.1
    · rw [getElem?_at_length]
      rfl
  · exact absurd hk hn

/-- Witness of C9: key 3 is inserted into a vector holding 1 and 5; one stored key
is less than 3, the lower bound is 1 and the vector afterwards holds 1, 3, 5. -/
theorem C9_insert_new_key_witness :
    StrictTotal natHost ∧ Sorted natHost [⟨1, 10⟩, ⟨5, 50⟩] ∧
      ¬ hasKey natHost [⟨1, 10⟩, ⟨5, 50⟩] 3 ∧
      lower_bound (MapItem.CompLess natHost) [⟨1, 10⟩, ⟨5, 50⟩] 3 = 1 ∧
      SortedMap.setitem natHost [⟨1, 10⟩, ⟨5, 50⟩] 3 30
        = ([⟨1, 10⟩, ⟨3, 30⟩, ⟨5, 50⟩], 0) ∧
      ((SortedMap.setitem natHost [⟨1, 10⟩, ⟨5, 50⟩] 3 30).2 = 0 ∧
        (SortedMap.setitem natHost [⟨1, 10⟩, ⟨5, 50⟩] 3 30).1
          = List.take (lower_bound (MapItem.CompLess natHost) [⟨1, 10⟩, ⟨5, 50⟩] 3)
              [⟨1, 10⟩, ⟨5, 50⟩] ++ MapItem.mk 3 30 ::
              List.drop (lower_bound (MapItem.CompLess natHost) [⟨1, 10⟩, ⟨5, 50⟩] 3)
                [⟨1, 10⟩, ⟨5, 50⟩] ∧
        SortedMap_length (SortedMap.setitem natHost [⟨1, 10⟩, ⟨5, 50⟩] 3 30).1
          = SortedMap_length ([⟨1, 10⟩, ⟨5, 50⟩] : sortedmap_t Nat) + 1 ∧
        (SortedMap.setitem natHost [⟨1, 10⟩, ⟨5, 50⟩] 3 30).1[
            lower_bound (MapItem.CompLess natHost) [⟨1, 10⟩, ⟨5, 50⟩] 3]?
          = some (MapItem.mk 3 30) ∧
        lower_bound (MapItem.CompLess natHost)
            (SortedMap.setitem natHost [⟨1, 10⟩, ⟨5, 50⟩] 3 30).1 3
          = lower_bound (MapItem.CompLess natHost) [⟨1, 10⟩, ⟨5, 50⟩] 3 ∧
        vec_erase (SortedMap.setitem natHost [⟨1, 10⟩, ⟨5, 50⟩] 3 30).1
            (lower_bound (MapItem.CompLess natHost) [⟨1, 10⟩, ⟨5, 50⟩] 3)
          = [⟨1, 10⟩, ⟨5, 50⟩] ∧
        SortedMap.delitem natHost (SortedMap.setitem natHost [⟨1, 10⟩, ⟨5, 50⟩] 3 30).1 3
          = ([⟨1, 10⟩, ⟨5, 50⟩], 0, none) ∧
        lower_bound (MapItem.CompLess natHost) [⟨1, 10⟩, ⟨5, 50⟩] 3
          = (List.filter (fun x => natHost.lt x.m_key 3)
              ([⟨1, 10⟩, ⟨5, 50⟩] : sortedmap_t Nat)).length ∧
        (SortedMap.setitem natHost [⟨1, 10⟩, ⟨5, 50⟩] 3 30).1
          = List.take (List.filter (fun x => natHost.lt x.m_key 3)
                ([⟨1, 10⟩, ⟨5, 50⟩] : sortedmap_t Nat)).length [⟨1, 10⟩, ⟨5, 50⟩] ++
              MapItem.mk 3 30 ::
              List.drop (List.filter (fun x => natHost.lt x.m_key 3)
                ([⟨1, 10⟩, ⟨5, 50⟩] : sortedmap_t Nat)).length [⟨1, 10⟩, ⟨5, 50⟩] ∧
        (SortedMap.setitem natHost [⟨1, 10⟩, ⟨5, 50⟩] 3 30).1[
            (List.filter (fun x => natHost.lt x.m_key 3)
              ([⟨1, 10⟩, ⟨5, 50⟩] : sortedmap_t Nat)).length]?
          = some (MapItem.mk 3 30) ∧
        (∀ x ∈ List.take (List.filter (fun x => natHost.lt x.m_key 3)
              ([⟨1, 10⟩, ⟨5, 50⟩] : sortedmap_t Nat)).length
            ([⟨1, 10⟩, ⟨5, 50⟩] : sortedmap_t Nat),
          natHost.lt x.m_key 3 = true) ∧
        (∀ x ∈ List.drop (List.filter (fun x => natHost.lt x.m_key 3)
              ([⟨1, 10⟩, ⟨5, 50⟩] : sortedmap_t Nat)).length
            ([⟨1, 10⟩, ⟨5, 50⟩] : sortedmap_t Nat),
          natHost.lt 3 x.m_key = true) ∧
        Sorted natHost (SortedMap.setitem natHost [⟨1, 10⟩, ⟨5, 50⟩] 3 30).1) :=
  ⟨natHost_strictTotal, by decide, by decide, by decide, by rfl,
    C9_insert_new_key natHost natHost_strictTotal [⟨1, 10⟩, ⟨5, 50⟩] (by decide) 3 30
      (by decide)⟩

/-- Claim C10 (update replaces the value only).  On a sorted vector with a stored
key equal to `k`, `set(k, v)` returns 0 and leaves `keys()` as it was: the
vector is `L ++ y :: R` with the key of `y` equal to `k`, and afterwards it is
`L ++ (key of y, v) :: R`, so the key object stored before is kept, `len()` is
unchanged and no other entry changes. -/
theorem C10_update_value_only (h : Host Obj) (hs : StrictTotal h) (v : sortedmap_t Obj)
    (hv : Sorted h v) (key value : Obj) (hk : hasKey h v key) :
    (SortedMap.setitem h v key value).2 = 0 ∧
      SortedMap_keys (SortedMap.setitem h v key value).1 = SortedMap_keys v ∧
      SortedMap_length (SortedMap.setitem h v key value).1 = SortedMap_length v ∧
      ∃ L y R, v = L ++ y :: R ∧ y.key_equals h key = true ∧
        (∀ x ∈ L ++ R, x.key_equals h key = false) ∧
        (SortedMap.setitem h v key value).1 = L ++ MapItem.mk y.m_key value :: R := by
  obtain ⟨L, y, R, hLR, hp, hy, hne⟩ := present_view hs v hv key hk
  subst hLR
  have e1 := (eval_present h L R y key hp hy value none).2.1
  rw [e1]
  refine ⟨rfl, ?_, ?_, L, y, R, rfl, hy, hne, rfl⟩
  · simp [SortedMap_keys, SortedMap.keys, MapItem.key]
  · simp [SortedMap_length]

/-- Witness of C10: objects 30 and 31 are distinct and compare equal; setting key
31 in a vector that stores 10 and 30 rebinds the value of the entry of 30. -/
theorem C10_update_value_only_witness :
    StrictTotal aliasHost ∧ Sorted aliasHost [⟨10, 1⟩, ⟨30, 3⟩] ∧
      hasKey aliasHost [⟨10, 1⟩, ⟨30, 3⟩] 31 ∧
      SortedMap.setitem aliasHost [⟨10, 1⟩, ⟨30, 3⟩] 31 4 = ([⟨10, 1⟩, ⟨30, 4⟩], 0) ∧
      ((SortedMap.setitem aliasHost [⟨10, 1⟩, ⟨30, 3⟩] 31 4).2 = 0 ∧
        SortedMap_keys (SortedMap.setitem aliasHost [⟨10, 1⟩, ⟨30, 3⟩] 31 4).1
          = SortedMap_keys ([⟨10, 1⟩, ⟨30, 3⟩] : sortedmap_t Nat) ∧
        SortedMap_length (SortedMap.setitem aliasHost [⟨10, 1⟩, ⟨30, 3⟩] 31 4).1
          = SortedMap_length ([⟨10, 1⟩, ⟨30, 3⟩] : sortedmap_t Nat) ∧
        ∃ L y R, ([⟨10, 1⟩, ⟨30, 3⟩] : sortedmap_t Nat) = L ++ y :: R ∧
          y.key_equals aliasHost 31 = true ∧
          (∀ x ∈ L ++ R, x.key_equals aliasHost 31 = false) ∧
          (SortedMap.setitem aliasHost [⟨10, 1⟩, ⟨30, 3⟩] 31 4).1
            = L ++ MapItem.mk y.m_key 4 :: R) :=
  ⟨aliasHost_strictTotal, by decide, by decide, by rfl,
    C10_update_value_only aliasHost aliasHost_strictTotal [⟨10, 1⟩, ⟨30, 3⟩] (by decide) 31 4
      (by decide)⟩

/-- Counterexample to C11 as stated: for a key class that defines `<` and leaves
`==` at identity, objects 30 and 31 are not identical and neither is less than
the other, yet `key_equals` is false, and the map that stores 30 does not
contain 31; with the same `<` and a `==` by value it does. -/
theorem C11_counterexample :
    (30 : Nat) ≠ 31 ∧ ltOnlyHost.lt 30 31 = false ∧ ltOnlyHost.lt 31 30 = false ∧
      (MapItem.mk 30 3).key_equals ltOnlyHost 31 = false ∧
      SortedMap.contains ltOnlyHost [⟨30, 3⟩] 31 = false ∧
      (∀ a b : Nat, ltOnlyHost.lt a b = aliasHost.lt a b) ∧
      SortedMap.contains aliasHost [⟨30, 3⟩] 31 = true :=
  ⟨by decide, by decide, by decide, by decide, by decide, ltOnlyHost_lt_eq, by decide⟩

/-- Claim C11, amended.  The equality test `key_equals` holds exactly when the two
keys are identical or the interpreter's `==` (the rich comparison `Py_EQ`)
holds for them, and `key_lessthan` holds exactly when they are not identical
and the interpreter's `<` holds; `==` is asked of the key type and is not
computed from `<`.  When `==` agrees with a strict total order `<`, the test
holds exactly when neither key is less than the other. -/
theorem C11_key_equality (h : Host Obj) (item : MapItem Obj) (key : Obj) :
    (item.key_equals h key = true ↔
        (item.m_key = key ∨ h.richcompare item.m_key key CompareOp.Py_EQ = true)) ∧
      (item.key_lessthan h key = true ↔
        (item.m_key ≠ key ∧ h.richcompare item.m_key key CompareOp.Py_LT = true)) ∧
      (StrictTotal h →
        (item.key_equals h key = true ↔
          (h.lt item.m_key key = false ∧ h.lt key item.m_key = false))) := by
  refine ⟨?_, ?_, ?_⟩
  · simp [MapItem.key_equals]
  · unfold MapItem.key_lessthan
    by_cases hid : item.m_key = key
    · simp [hid]
    · simp [hid]
  · intro hs
    rw [key_equals_eq_eq hs]
    exact hs.eq_iff _ _

/-- Witness of C11 amended: the stored key 3 and the probe 3 under the order of
the natural numbers. -/
theorem C11_key_equality_witness :
    StrictTotal natHost ∧
      (((MapItem.mk 3 30).key_equals natHost 3 = true ↔
          ((MapItem.mk 3 30).m_key = 3 ∨
            natHost.richcompare (MapItem.mk 3 30).m_key 3 CompareOp.Py_EQ = true)) ∧
        ((MapItem.mk 3 30).key_lessthan natHost 3 = true ↔
          ((MapItem.mk 3 30).m_key ≠ 3 ∧
            natHost.richcompare (MapItem.mk 3 30).m_key 3 CompareOp.Py_LT = true)) ∧
        (StrictTotal natHost →
          ((MapItem.mk 3 30).key_equals natHost 3 = true ↔
            (natHost.lt (MapItem.mk 3 30).m_key 3 = false ∧
              natHost.lt 3 (MapItem.mk 3 30).m_key = false)))) :=
  ⟨natHost_strictTotal, C11_key_equality natHost (MapItem.mk 3 30) 3⟩

/-- Counterexample to C12 as stated: in the map that holds key 1, `set(100, 5)`
compares 1 with 100 and that comparison raises.  Whichever `bool` the raise is
turned into, `setitem` returns 0 and the new entry is in the vector (in front
of key 1 when the raise counts as `false`, behind it when it counts as
`true`); `contains(100)` answers a plain `false` on the same failing comparison. -/
theorem C12_counterexample :
    raisingCompare 1 100 CompareOp.Py_LT = none ∧
      SortedMap.setitem (raisingHost false) [⟨1, 10⟩] 100 5 = ([⟨100, 5⟩, ⟨1, 10⟩], 0) ∧
      SortedMap.setitem (raisingHost true) [⟨1, 10⟩] 100 5 = ([⟨1, 10⟩, ⟨100, 5⟩], 0) ∧
      SortedMap_ass_subscript (raisingHost false) [⟨1, 10⟩] 100 (some 5)
        = ([⟨100, 5⟩, ⟨1, 10⟩], 0, none) ∧
      SortedMap.contains (raisingHost false) [⟨1, 10⟩] 100 = false :=
  ⟨by rfl, by rfl, by rfl, by rfl, by rfl⟩

/-- Claim C12, amended.  A failing comparison is not reported: the comparison
reaches the methods as a plain `bool`, whatever `bool` stands for a raise.
`setitem` always returns 0 and always commits: either the vector is one entry
longer and holds `(k, v)` at the lower bound, or the entry at the lower bound
has its value rebound to `v`.  The lookups, `delitem` and `pop` fail in one
way only, through `lookup_fail` when they find no key equal to `k`, and then
leave the vector as it is. -/
theorem C12_comparison_failure_not_reported
    (compare : Obj → Obj → CompareOp → Option Bool) (onError : Bool)
    (str : Obj → Bool) (none_obj : Obj) (v : sortedmap_t Obj) (key value : Obj)
    (d : Option Obj) :
    (SortedMap.setitem (Host.mk (richcompare_of compare onError) str none_obj)
        v key value).2 = 0 ∧
      (SortedMap_ass_subscript (Host.mk (richcompare_of compare onError) str none_obj)
        v key (some value)).2 = (0, none) ∧
      ((SortedMap_length (SortedMap.setitem
              (Host.mk (richcompare_of compare onError) str none_obj) v key value).1
            = SortedMap_length v + 1 ∧
          (SortedMap.setitem (Host.mk (richcompare_of compare onError) str none_obj)
              v key value).1[lower_bound
                (MapItem.CompLess (Host.mk (richcompare_of compare onError) str none_obj))
                v key]?
            = some (MapItem.mk key value)) ∨
        ∃ item, v[lower_bound
              (MapItem.CompLess (Host.mk (richcompare_of compare onError) str none_obj))
              v key]? = some item ∧
          (SortedMap.setitem (Host.mk (richcompare_of compare onError) str none_obj)
              v key value).1
            = v.set (lower_bound
                (MapItem.CompLess (Host.mk (richcompare_of compare onError) str none_obj))
                v key) (MapItem.mk item.m_key value)) ∧
      ((∃ r, SortedMap.getitem (Host.mk (richcompare_of compare onError) str none_obj)
            v key d = .ok r) ∨
        SortedMap.getitem (Host.mk (richcompare_of compare onError) str none_obj) v key d
          = .error (SortedMap.lookup_fail
              (Host.mk (richcompare_of compare onError) str none_obj) key)) ∧
      ((SortedMap.delitem (Host.mk (richcompare_of compare onError) str none_obj)
            v key).2 = (0, none) ∨
        SortedMap.delitem (Host.mk (richcompare_of compare onError) str none_obj) v key
          = (v, -1, some (SortedMap.lookup_fail
              (Host.mk (richcompare_of compare onError) str none_obj) key))) ∧
      ((∃ r, (SortedMap.pop (Host.mk (richcompare_of compare onError) str none_obj)
            v key d).2 = .ok r) ∨
        SortedMap.pop (Host.mk (richcompare_of compare onError) str none_obj) v key d
          = (v, .error (SortedMap.lookup_fail
              (Host.mk (richcompare_of compare onError) str none_obj) key))) := by
  generalize Host.mk (richcompare_of compare onError) str none_obj = h
  rcases lower_bound_cases (MapItem.CompLess h) v key with hend | ⟨L, y, R, hLR, hp⟩
  · have hnone : v[lower_bound (MapItem.CompLess h) v key]? = none := by
      rw [hend]
      exact List.getElem?_eq_none (Nat.le_refl _)
    have hlast : (v ++ [MapItem.mk key value])[v.length]? = some (MapItem.mk key value) := by
      simp
    unfold SortedMap_ass_subscript SortedMap.setitem SortedMap.getitem SortedMap.delitem
      SortedMap.pop
    simp only [hnone]
    refine ⟨by trivial, by trivial,
      Or.inl ⟨by simp [SortedMap_length], by rw [hend]; exact hlast⟩, ?_,
      Or.inr (by trivial), ?_⟩
    · cases d with
      | none => exact Or.inr rfl
      | some dv => exact Or.inl ⟨dv, rfl⟩
    · cases d with
      | none => exact Or.inr rfl
      | some dv => exact Or.inl ⟨dv, rfl⟩
  · subst hLR
    have hsome : (L ++ y :: R)[lower_bound (MapItem.CompLess h) (L ++ y :: R) key]? = some y := by
      rw [hp, getElem?_at_length]
      rfl
    unfold SortedMap_ass_subscript SortedMap.setitem SortedMap.getitem SortedMap.delitem
      SortedMap.pop
    simp only [hsome]
    cases hy : y.key_equals h key with
    | true =>
      simp only [if_true]
      refine ⟨by trivial, by trivial, Or.inr ⟨y, rfl, rfl⟩, Or.inl ⟨_, rfl⟩,
        Or.inl (by trivial), Or.inl ⟨_, rfl⟩⟩
    | false =>
      simp only [Bool.false_eq_true, if_false]
      refine ⟨by trivial, by trivial, Or.inl ⟨?_, ?_⟩, ?_, Or.inr (by trivial), ?_⟩
      · rw [hp, vec_insert_at_length]
        simp only [SortedMap_length, List.length_append, List.length_cons]
        push_cast
        omega
      · rw [hp, vec_insert_at_length, getElem?_at_length]
        rfl
      · cases d with
        | none => exact Or.inr rfl
        | some dv => exact Or.inl ⟨dv, rfl⟩
      · cases d with
        | none => exact Or.inr rfl
        | some dv => exact Or.inl ⟨dv, rfl⟩

/-- Counterexample to C13 as stated: key 100, on which `str` raises, is missing
from the sorted map that holds key 1.  The lookup `m[100]`, `delete(100)` and
`pop(100)` all fail and leave the map as it is, but the exception left pending
is the one raised by `str`, not a `KeyError`. -/
theorem C13_counterexample :
    StrictTotal strHost ∧ Sorted strHost [⟨1, 10⟩] ∧ ¬ hasKey strHost [⟨1, 10⟩] 100 ∧
      SortedMap_subscript strHost [⟨1, 10⟩] 100 = .error (PyErr.StrFailure 100) ∧
      SortedMap.delitem strHost [⟨1, 10⟩] 100 = ([⟨1, 10⟩], -1, some (PyErr.StrFailure 100)) ∧
      SortedMap_pop strHost [⟨1, 10⟩] [100] = ([⟨1, 10⟩], .error (PyErr.StrFailure 100)) ∧
      PyErr.StrFailure 100 ≠ PyErr.KeyError 100 :=
  ⟨strHost_strictTotal, by decide, by decide, by rfl, by rfl, by rfl, by decide⟩

/-- Claim C13, amended.  When no stored key equals `k`, the lookup `m[k]`,
`delete(k)` and the pop method with the one argument `k` each fail, with the
`KeyError` of `k` pending when `str(k)` succeeds and with what `str(k)` raised
otherwise, and the vector after the failed call is the vector before it: it is
still sorted when it was, and a later call sees the same map. -/
theorem C13_absent_key_failure (h : Host Obj) (v : sortedmap_t Obj) (key : Obj)
    (hn : ¬ hasKey h v key) :
    SortedMap_subscript h v key
        = .error (if h.PyObject_Str key = true then PyErr.KeyError key
            else PyErr.StrFailure key) ∧
      SortedMap.delitem h v key
        = (v, -1, some (if h.PyObject_Str key = true then PyErr.KeyError key
            else PyErr.StrFailure key)) ∧
      SortedMap_ass_subscript h v key none
        = (v, -1, some (if h.PyObject_Str key = true then PyErr.KeyError key
            else PyErr.StrFailure key)) ∧
      SortedMap_pop h v [key]
        = (v, .error (if h.PyObject_Str key = true then PyErr.KeyError key
            else PyErr.StrFailure key)) ∧
      (Sorted h v → Sorted h (SortedMap.delitem h v key).1 ∧
        Sorted h (SortedMap_pop h v [key]).1) := by
  obtain ⟨L, R, hLR, hp, hR⟩ := absent_view h v key hn
  have hev := eval_absent h L R key hp hR key none
  rw [← hLR] at hev
  have hpop : SortedMap_pop h v [key] = (v, .error (SortedMap.lookup_fail h key)) := by
    rw [SortedMap_pop_one]
    exact hev.2.2.2.2
  refine ⟨hev.1, hev.2.2.1, hev.2.2.1, hpop, ?_⟩
  intro hv
  rw [hev.2.2.1, hpop]
  exact ⟨hv, hv⟩

/-- Witness of C13 amended: key 9 is missing from a vector holding 1, 3 and 5. -/
theorem C13_absent_key_failure_witness :
    ¬ hasKey natHost [⟨1, 10⟩, ⟨3, 30⟩, ⟨5, 50⟩] 9 ∧
      Sorted natHost [⟨1, 10⟩, ⟨3, 30⟩, ⟨5, 50⟩] ∧
      (SortedMap_subscript natHost [⟨1, 10⟩, ⟨3, 30⟩, ⟨5, 50⟩] 9
          = .error (if natHost.PyObject_Str 9 = true then PyErr.KeyError 9
              else PyErr.StrFailure 9) ∧
        SortedMap.delitem natHost [⟨1, 10⟩, ⟨3, 30⟩, ⟨5, 50⟩] 9
          = ([⟨1, 10⟩, ⟨3, 30⟩, ⟨5, 50⟩], -1,
              some (if natHost.PyObject_Str 9 = true then PyErr.KeyError 9
                else PyErr.StrFailure 9)) ∧
        SortedMap_ass_subscript natHost [⟨1, 10⟩, ⟨3, 30⟩, ⟨5, 50⟩] 9 none
          = ([⟨1, 10⟩, ⟨3, 30⟩, ⟨5, 50⟩], -1,
              some (if natHost.PyObject_Str 9 = true then PyErr.KeyError 9
                else PyErr.StrFailure 9)) ∧
        SortedMap_pop natHost [⟨1, 10⟩, ⟨3, 30⟩, ⟨5, 50⟩] [9]
          = ([⟨1, 10⟩, ⟨3, 30⟩, ⟨5, 50⟩],
              .error (if natHost.PyObject_Str 9 = true then PyErr.KeyError 9
                else PyErr.StrFailure 9)) ∧
        (Sorted natHost [⟨1, 10⟩, ⟨3, 30⟩, ⟨5, 50⟩] →
          Sorted natHost (SortedMap.delitem natHost [⟨1, 10⟩, ⟨3, 30⟩, ⟨5, 50⟩] 9).1 ∧
            Sorted natHost (SortedMap_pop natHost [⟨1, 10⟩, ⟨3, 30⟩, ⟨5, 50⟩] [9]).1)) :=
  ⟨by decide, by decide,
    C13_absent_key_failure natHost [⟨1, 10⟩, ⟨3, 30⟩, ⟨5, 50⟩] 9 (by decide)⟩

end Claims

section SnapshotClaims

variable {Obj : Type}

/-- Claim C16 (snapshot extraction).  For every vector `keys()`, `values()` and
`items()` have `len()` elements and list the entries in stored order: element
`i` is the key, the value, the pair of entry `i`, and `items()` pairs `keys()`
with `values()` element by element.  Keys 5, 1, 3 set in that order with value
ten times the key give `keys()` 1, 3, 5 and `items()` (1,10), (3,30), (5,50). -/
theorem C16_snapshots (self : sortedmap_t Obj) (i : Nat) :
    ((SortedMap_keys self).length : Int) = SortedMap_length self ∧
      ((SortedMap_values self).length : Int) = SortedMap_length self ∧
      ((SortedMap_items self).length : Int) = SortedMap_length self ∧
      (SortedMap_keys self)[i]? = self[i]?.map MapItem.m_key ∧
      (SortedMap_values self)[i]? = self[i]?.map MapItem.m_value ∧
      (SortedMap_items self)[i]? = self[i]?.map (fun item => (item.m_key, item.m_value)) ∧
      SortedMap_items self = List.zip (SortedMap_keys self) (SortedMap_values self) ∧
      SortedMap_keys (run natHost [Op.set 5 50, Op.set 1 10, Op.set 3 30] SortedMap_new)
        = [1, 3, 5] ∧
      SortedMap_values (run natHost [Op.set 5 50, Op.set 1 10, Op.set 3 30] SortedMap_new)
        = [10, 30, 50] ∧
      SortedMap_items (run natHost [Op.set 5 50, Op.set 1 10, Op.set 3 30] SortedMap_new)
        = [(1, 10), (3, 30), (5, 50)] := by
  refine ⟨?_, ?_, ?_, ?_, ?_, ?_, ?_, by decide, by decide, by decide⟩
  · simp [SortedMap_keys, SortedMap.keys, SortedMap_length]
  · simp [SortedMap_values, SortedMap.values, SortedMap_length]
  · simp [SortedMap_items, SortedMap.items, SortedMap_length]
  · simp only [SortedMap_keys, SortedMap.keys, List.getElem?_map]
    rfl
  · simp only [SortedMap_values, SortedMap.values, List.getElem?_map]
    rfl
  · simp only [SortedMap_items, SortedMap.items, List.getElem?_map]
    rfl
  · simp only [SortedMap_items, SortedMap.items, SortedMap_keys, SortedMap.keys,
      SortedMap_values, SortedMap.values]
    induction self with
    | nil => rfl
    | cons a t ih =>
      simp only [List.map_cons, List.zip_cons_cons, ih]

end SnapshotClaims

section LookupClaims

variable {Obj : Type} [DecidableEq Obj]

/-- Claim C17 (membership agrees with the stored keys).  On a strictly ascending
vector under a strict total order, `contains(k)` is true exactly when some
element of `keys()` is identical or equal to `k`, and exactly when the lookup
`m[k]` returns a value. -/
theorem C17_membership (h : Host Obj) (hs : StrictTotal h) (v : sortedmap_t Obj)
    (hv : Sorted h v) (key : Obj) :
    (SortedMap_contains h v key = true ↔
        ∃ a ∈ SortedMap_keys v, a = key ∨ h.eq a key = true) ∧
      (SortedMap_contains h v key = true ↔ ∃ r, SortedMap_subscript h v key = .ok r) ∧
      (SortedMap_contains h v key = false ↔
        SortedMap_subscript h v key = .error (SortedMap.lookup_fail h key)) := by
  have hkeys : hasKey h v key ↔ ∃ a ∈ SortedMap_keys v, a = key ∨ h.eq a key = true := by
    unfold hasKey SortedMap_keys SortedMap.keys MapItem.key MapItem.key_equals Host.eq
    simp only [List.mem_map, Bool.or_eq_true, decide_eq_true_eq]
    constructor
    · rintro ⟨item, hmem, hitem⟩
      exact ⟨item.m_key, ⟨item, hmem, rfl⟩, hitem⟩
    · rintro ⟨a, ⟨item, hmem, rfl⟩, ha⟩
      exact ⟨item, hmem, ha⟩
  refine ⟨(contains_iff_hasKey hs v hv key).trans hkeys, ?_, ?_⟩
  · rcases locate_hasKey hs v hv key with
      ⟨-, L, R, hLR, hp, -, -, hRk⟩ | ⟨-, L, y, R, hLR, hp, hy, -, -, -⟩
    · subst hLR
      have hev := eval_absent h L R key hp hRk key none
      unfold SortedMap_contains SortedMap_subscript
      rw [hev.2.2.2.1, hev.1]
      constructor
      · intro hc
        exact absurd hc Bool.false_ne_true
      · rintro ⟨r, hr⟩
        cases hr
    · subst hLR
      have hev := eval_present h L R y key hp hy key none
      unfold SortedMap_contains SortedMap_subscript
      rw [hev.2.2.2.1, hev.1]
      exact ⟨fun _ => ⟨_, rfl⟩, fun _ => rfl⟩
  · rcases locate_hasKey hs v hv key with
      ⟨-, L, R, hLR, hp, -, -, hRk⟩ | ⟨-, L, y, R, hLR, hp, hy, -, -, -⟩
    · subst hLR
      have hev := eval_absent h L R key hp hRk key none
      unfold SortedMap_contains SortedMap_subscript
      rw [hev.2.2.2.1, hev.1]
      exact ⟨fun _ => rfl, fun _ => rfl⟩
    · subst hLR
      have hev := eval_present h L R y key hp hy key none
      unfold SortedMap_contains SortedMap_subscript
      rw [hev.2.2.2.1, hev.1]
      constructor
      · intro hc
        exact absurd hc.symm Bool.false_ne_true
      · intro hc
        cases hc

/-- Witness of C17: key 3 in a vector holding 1, 3 and 5. -/
theorem C17_membership_witness :
    StrictTotal natHost ∧ Sorted natHost [⟨1, 10⟩, ⟨3, 30⟩, ⟨5, 50⟩] ∧
      SortedMap_contains natHost [⟨1, 10⟩, ⟨3, 30⟩, ⟨5, 50⟩] 3 = true ∧
      ((SortedMap_contains natHost [⟨1, 10⟩, ⟨3, 30⟩, ⟨5, 50⟩] 3 = true ↔
          ∃ a ∈ SortedMap_keys ([⟨1, 10⟩, ⟨3, 30⟩, ⟨5, 50⟩] : sortedmap_t Nat),
            a = 3 ∨ natHost.eq a 3 = true) ∧
        (SortedMap_contains natHost [⟨1, 10⟩, ⟨3, 30⟩, ⟨5, 50⟩] 3 = true ↔
          ∃ r, SortedMap_subscript natHost [⟨1, 10⟩, ⟨3, 30⟩, ⟨5, 50⟩] 3 = .ok r) ∧
        (SortedMap_contains natHost [⟨1, 10⟩, ⟨3, 30⟩, ⟨5, 50⟩] 3 = false ↔
          SortedMap_subscript natHost [⟨1, 10⟩, ⟨3, 30⟩, ⟨5, 50⟩] 3
            = .error (SortedMap.lookup_fail natHost 3))) :=
  ⟨natHost_strictTotal, by decide, by decide,
    C17_membership natHost natHost_strictTotal [⟨1, 10⟩, ⟨3, 30⟩, ⟨5, 50⟩] (by decide) 3⟩

/-- Claim C18 (lower-bound search).  On a strictly ascending vector under a strict
total order the binary search returns the first position whose key is not less
than `k`: the position is at most the size, every entry before it has a key
less than `k`, every entry at or after it has a key not less than `k`, and the
position is the number of stored keys less than `k`, which is the size when
all are. -/
theorem C18_lower_bound (h : Host Obj) (hs : StrictTotal h) (v : sortedmap_t Obj)
    (hv : Sorted h v) (key : Obj) :
    lower_bound (MapItem.CompLess h) v key ≤ v.length ∧
      (∀ i x, i < lower_bound (MapItem.CompLess h) v key → v[i]? = some x →
        h.lt x.m_key key = true ∧ x.key_lessthan h key = true) ∧
      (∀ i x, lower_bound (MapItem.CompLess h) v key ≤ i → v[i]? = some x →
        h.lt x.m_key key = false ∧ x.key_lessthan h key = false) ∧
      lower_bound (MapItem.CompLess h) v key
        = (v.filter fun x => h.lt x.m_key key).length ∧
      ((∀ x ∈ v, h.lt x.m_key key = true) →
        lower_bound (MapItem.CompLess h) v key = v.length) := by
  obtain ⟨L, R, hLR, hL, hR⟩ := sorted_split hs v hv key
  have hp : lower_bound (MapItem.CompLess h) v key = L.length := by
    rw [hLR]
    apply lower_bound_append
    · intro x hx
      show x.key_lessthan h key = true
      rw [key_lessthan_eq_lt hs]
      exact hL x hx
    · intro x hx
      show x.key_lessthan h key = false
      rw [key_lessthan_eq_lt hs]
      exact hR x hx
  refine ⟨lower_bound_le _ v key, ?_, ?_, ?_, ?_⟩
  · intro i x hi hx
    rw [hp] at hi
    rw [hLR, List.getElem?_append_left hi] at hx
    have := hL x (List.getElem?_mem hx)
    exact ⟨this, by rw [key_lessthan_eq_lt hs]; exact this⟩
  · intro i x hi hx
    rw [hp] at hi
    rw [hLR, List.getElem?_append_right hi] at hx
    have := hR x (List.getElem?_mem hx)
    exact ⟨this, by rw [key_lessthan_eq_lt hs]; exact this⟩
  · have hfL : (L.filter fun x => h.lt x.m_key key) = L :=
      List.filter_eq_self.2 hL
    have hfR : (R.filter fun x => h.lt x.m_key key) = [] :=
      List.filter_eq_nil_iff.2 fun x hx => by rw [hR x hx]; exact Bool.false_ne_true
    rw [hp, hLR, List.filter_append, hfL, hfR, List.append_nil]
  · intro hall
    cases R with
    | nil => rw [hp, hLR, List.append_nil]
    | cons y R =>
      have h1 := hR y (List.mem_cons_self _ _)
      have h2 := hall y (by rw [hLR]; simp)
      rw [h1] at h2
      exact absurd h2 Bool.false_ne_true

/-- Witness of C18: the lower bound of key 4 among the keys 1, 3 and 5. -/
theorem C18_lower_bound_witness :
    StrictTotal natHost ∧ Sorted natHost [⟨1, 10⟩, ⟨3, 30⟩, ⟨5, 50⟩] ∧
      lower_bound (MapItem.CompLess natHost) [⟨1, 10⟩, ⟨3, 30⟩, ⟨5, 50⟩] 4 = 2 ∧
      (lower_bound (MapItem.CompLess natHost) [⟨1, 10⟩, ⟨3, 30⟩, ⟨5, 50⟩] 4
          ≤ List.length ([⟨1, 10⟩, ⟨3, 30⟩, ⟨5, 50⟩] : sortedmap_t Nat) ∧
        (∀ i x, i < lower_bound (MapItem.CompLess natHost) [⟨1, 10⟩, ⟨3, 30⟩, ⟨5, 50⟩] 4 →
          ([⟨1, 10⟩, ⟨3, 30⟩, ⟨5, 50⟩] : sortedmap_t Nat)[i]? = some x →
          natHost.lt x.m_key 4 = true ∧ x.key_lessthan natHost 4 = true) ∧
        (∀ i x, lower_bound (MapItem.CompLess natHost) [⟨1, 10⟩, ⟨3, 30⟩, ⟨5, 50⟩] 4 ≤ i →
          ([⟨1, 10⟩, ⟨3, 30⟩, ⟨5, 50⟩] : sortedmap_t Nat)[i]? = some x →
          natHost.lt x.m_key 4 = false ∧ x.key_lessthan natHost 4 = false) ∧
        lower_bound (MapItem.CompLess natHost) [⟨1, 10⟩, ⟨3, 30⟩, ⟨5, 50⟩] 4
          = (List.filter (fun x => natHost.lt x.m_key 4)
              ([⟨1, 10⟩, ⟨3, 30⟩, ⟨5, 50⟩] : sortedmap_t Nat)).length ∧
        ((∀ x ∈ ([⟨1, 10⟩, ⟨3, 30⟩, ⟨5, 50⟩] : sortedmap_t Nat),
            natHost.lt x.m_key 4 = true) →
          lower_bound (MapItem.CompLess natHost) [⟨1, 10⟩, ⟨3, 30⟩, ⟨5, 50⟩] 4
            = List.length ([⟨1, 10⟩, ⟨3, 30⟩, ⟨5, 50⟩] : sortedmap_t Nat))) :=
  ⟨natHost_strictTotal, by decide, by decide,
    C18_lower_bound natHost natHost_strictTotal [⟨1, 10⟩, ⟨3, 30⟩, ⟨5, 50⟩] (by decide) 4⟩

/-- Claim C19 (two-argument pop behaves like get).  For every vector, key `k` and
default `D`, the pop method called with `(k, D)` returns what the get method
called with `(k, D)` returns and leaves the vector as it is, so `len()` and
`contains(k)` are as before; when the lower bound of `k` points at an entry
whose key equals `k`, the value of that entry is returned and the entry stays. -/
theorem C19_pop_two_arguments_is_get (h : Host Obj) (v : sortedmap_t Obj) (key D : Obj) :
    (SortedMap_pop h v [key, D]).2 = SortedMap_get h v [key, D] ∧
      (SortedMap_pop h v [key, D]).1 = v ∧
      SortedMap_length (SortedMap_pop h v [key, D]).1 = SortedMap_length v ∧
      SortedMap_contains h (SortedMap_pop h v [key, D]).1 key = SortedMap_contains h v key ∧
      (∀ item, v[lower_bound (MapItem.CompLess h) v key]? = some item →
        item.key_equals h key = true →
        SortedMap_pop h v [key, D] = (v, .ok item.m_value)) := by
  refine ⟨rfl, rfl, rfl, rfl, ?_⟩
  intro item hitem hkey
  rw [SortedMap_pop_two]
  unfold SortedMap.getitem
  simp only [hitem, hkey, if_true]
  rfl

/-- Witness of C19: `pop(3, 7)` on the vector holding 1, 3 and 5, where key 3 is
present, returns 30 and leaves the three entries. -/
theorem C19_pop_two_arguments_is_get_witness :
    SortedMap_pop natHost [⟨1, 10⟩, ⟨3, 30⟩, ⟨5, 50⟩] [3, 7]
        = ([⟨1, 10⟩, ⟨3, 30⟩, ⟨5, 50⟩], .ok 30) ∧
      ((SortedMap_pop natHost [⟨1, 10⟩, ⟨3, 30⟩, ⟨5, 50⟩] [3, 7]).2
          = SortedMap_get natHost [⟨1, 10⟩, ⟨3, 30⟩, ⟨5, 50⟩] [3, 7] ∧
        (SortedMap_pop natHost [⟨1, 10⟩, ⟨3, 30⟩, ⟨5, 50⟩] [3, 7]).1
          = [⟨1, 10⟩, ⟨3, 30⟩, ⟨5, 50⟩] ∧
        SortedMap_length (SortedMap_pop natHost [⟨1, 10⟩, ⟨3, 30⟩, ⟨5, 50⟩] [3, 7]).1
          = SortedMap_length ([⟨1, 10⟩, ⟨3, 30⟩, ⟨5, 50⟩] : sortedmap_t Nat) ∧
        SortedMap_contains natHost
            (SortedMap_pop natHost [⟨1, 10⟩, ⟨3, 30⟩, ⟨5, 50⟩] [3, 7]).1 3
          = SortedMap_contains natHost [⟨1, 10⟩, ⟨3, 30⟩, ⟨5, 50⟩] 3 ∧
        (∀ item,
          ([⟨1, 10⟩, ⟨3, 30⟩, ⟨5, 50⟩] : sortedmap_t Nat)[
              lower_bound (MapItem.CompLess natHost) [⟨1, 10⟩, ⟨3, 30⟩, ⟨5, 50⟩] 3]?
            = some item →
          item.key_equals natHost 3 = true →
          SortedMap_pop natHost [⟨1, 10⟩, ⟨3, 30⟩, ⟨5, 50⟩] [3, 7]
            = ([⟨1, 10⟩, ⟨3, 30⟩, ⟨5, 50⟩], .ok item.m_value))) :=
  ⟨by rfl, C19_pop_two_arguments_is_get natHost [⟨1, 10⟩, ⟨3, 30⟩, ⟨5, 50⟩] 3 7⟩

/-- Counterexample to C15 as stated: every object stores itself back into the map
when the map drops its reference to it.  Clearing the map that holds (1, 10)
and (3, 30) drops 10, 1, 30 and 3; the first release finds the empty vector,
but the second finds the entry stored by the first, so that `len()` is 1 and
`contains(10)` is true there, and the map holds four entries at the end. -/
theorem C15_counterexample :
    (SortedMap_clear_release storeBack [⟨1, 10⟩, ⟨3, 30⟩]).2
        = [[], [⟨10, 10⟩], [⟨1, 1⟩, ⟨10, 10⟩], [⟨1, 1⟩, ⟨10, 10⟩, ⟨30, 30⟩]] ∧
      SortedMap_length ([⟨10, 10⟩] : sortedmap_t Nat) = 1 ∧
      SortedMap_contains natHost [⟨10, 10⟩] 10 = true ∧
      (SortedMap_clear_release storeBack [⟨1, 10⟩, ⟨3, 30⟩]).1
        = [⟨1, 1⟩, ⟨3, 3⟩, ⟨10, 10⟩, ⟨30, 30⟩] :=
  ⟨by decide, by decide, by decide, by decide⟩

/-- Claim C15 (detach, then dispose), amended.  In `clear` the map's vector is
swapped with the empty one before any reference of the old entries is dropped:
the first release finds the empty vector, and release number `i` finds exactly
what the `i` releases before it stored, starting from the empty vector, never
a part of the old sequence left by the teardown.  When no released object
stores into the empty map, every release finds `len()` 0 and `contains(k)`
false, and the map is empty at the end. -/
theorem C15_clear_detaches_first (h : Host Obj)
    (rel : Obj → sortedmap_t Obj → sortedmap_t Obj) (self : sortedmap_t Obj) :
    (vec_swap self []).1 = [] ∧
      (SortedMap_clear_release rel self).2.length = 2 * self.length ∧
      (∀ m, (SortedMap_clear_release rel self).2.head? = some m → m = []) ∧
      (∀ i m, (SortedMap_clear_release rel self).2[i]? = some m →
        m = ((released self).take i).foldl (fun acc o => rel o acc) []) ∧
      (SortedMap_clear_release rel self).1
        = (released self).foldl (fun acc o => rel o acc) [] ∧
      ((∀ o ∈ released self, rel o [] = []) →
        (SortedMap_clear_release rel self).1 = [] ∧
          ∀ m ∈ (SortedMap_clear_release rel self).2,
            m = [] ∧ SortedMap_length m = 0 ∧ ∀ k, SortedMap_contains h m k = false) := by
  have heq : SortedMap_clear_release rel self
      = ((released self).foldl (fun acc o => rel o acc) [],
          observe rel (released self) []) := by
    unfold SortedMap_clear_release vec_swap
    exact vec_destroy_eq rel self []
  rw [heq]
  refine ⟨rfl, ?_, ?_, ?_, rfl, ?_⟩
  · rw [observe_length, released_length]
  · intro m hm
    cases hrel : released self with
    | nil =>
      rw [hrel] at hm
      simp [observe] at hm
    | cons o os =>
      rw [hrel] at hm
      simp only [observe, List.head?_cons, Option.some.injEq] at hm
      exact hm.symm
  · intro i m hm
    exact observe_getElem? rel (released self) [] i m hm
  · intro hrel
    have hall := observe_all_nil rel (released self) hrel
    refine ⟨hall.1, ?_⟩
    intro m hm
    have hnil := hall.2 m hm
    subst hnil
    exact ⟨rfl, rfl, fun _ => rfl⟩

/-- Witness of C15 amended: a release behaviour that only reads the map, on the
vector holding (1, 10) and (3, 30). -/
theorem C15_clear_detaches_first_witness :
    (∀ o ∈ released ([⟨1, 10⟩, ⟨3, 30⟩] : sortedmap_t Nat),
        (fun (_ : Nat) (m : sortedmap_t Nat) => m) o [] = []) ∧
      (SortedMap_clear_release (fun (_ : Nat) (m : sortedmap_t Nat) => m)
        [⟨1, 10⟩, ⟨3, 30⟩]).2 = [[], [], [], []] ∧
      ((vec_swap ([⟨1, 10⟩, ⟨3, 30⟩] : sortedmap_t Nat) []).1 = [] ∧
        (SortedMap_clear_release (fun (_ : Nat) (m : sortedmap_t Nat) => m)
          [⟨1, 10⟩, ⟨3, 30⟩]).2.length
          = 2 * List.length ([⟨1, 10⟩, ⟨3, 30⟩] : sortedmap_t Nat) ∧
        (∀ m, (SortedMap_clear_release (fun (_ : Nat) (m : sortedmap_t Nat) => m)
          [⟨1, 10⟩, ⟨3, 30⟩]).2.head? = some m → m = []) ∧
        (∀ i m, (SortedMap_clear_release (fun (_ : Nat) (m : sortedmap_t Nat) => m)
            [⟨1, 10⟩, ⟨3, 30⟩]).2[i]? = some m →
          m = ((released ([⟨1, 10⟩, ⟨3, 30⟩] : sortedmap_t Nat)).take i).foldl
            (fun acc o => (fun (_ : Nat) (m : sortedmap_t Nat) => m) o acc) []) ∧
        (SortedMap_clear_release (fun (_ : Nat) (m : sortedmap_t Nat) => m)
            [⟨1, 10⟩, ⟨3, 30⟩]).1
          = (released ([⟨1, 10⟩, ⟨3, 30⟩] : sortedmap_t Nat)).foldl
            (fun acc o => (fun (_ : Nat) (m : sortedmap_t Nat) => m) o acc) [] ∧
        ((∀ o ∈ released ([⟨1, 10⟩, ⟨3, 30⟩] : sortedmap_t Nat),
            (fun (_ : Nat) (m : sortedmap_t Nat) => m) o [] = []) →
          (SortedMap_clear_release (fun (_ : Nat) (m : sortedmap_t Nat) => m)
              [⟨1, 10⟩, ⟨3, 30⟩]).1 = [] ∧
            ∀ m ∈ (SortedMap_clear_release (fun (_ : Nat) (m : sortedmap_t Nat) => m)
                [⟨1, 10⟩, ⟨3, 30⟩]).2,
              m = [] ∧ SortedMap_length m = 0 ∧
                ∀ k, SortedMap_contains natHost m k = false)) :=
  ⟨fun _ _ => rfl, by decide,
    C15_clear_detaches_first natHost (fun (_ : Nat) (m : sortedmap_t Nat) => m)
      [⟨1, 10⟩, ⟨3, 30⟩]⟩

/-- Claim C20 (independence of other keys).  On a strictly ascending vector under
a strict total order, for keys `k` and `k2` that are not equal, the lookup of
`k2` (a value, the default, or the failure of a missing key) and
`contains(k2)` are the same after `set(k, v)` as before, the same after
`delete(k)` as before and the same after `pop(k)` as before, whether or not
the delete or the pop finds `k`. -/
theorem C20_other_keys (h : Host Obj) (hs : StrictTotal h) (v : sortedmap_t Obj)
    (hv : Sorted h v) (k value k2 : Obj) (d : Option Obj) (hne : h.eq k k2 = false) :
    (SortedMap_subscript h (SortedMap_ass_subscript h v k (some value)).1 k2
          = SortedMap_subscript h v k2 ∧
        SortedMap.getitem h (SortedMap_ass_subscript h v k (some value)).1 k2 d
          = SortedMap.getitem h v k2 d ∧
        SortedMap_contains h (SortedMap_ass_subscript h v k (some value)).1 k2
          = SortedMap_contains h v k2) ∧
      (SortedMap_subscript h (SortedMap_ass_subscript h v k none).1 k2
          = SortedMap_subscript h v k2 ∧
        SortedMap.getitem h (SortedMap_ass_subscript h v k none).1 k2 d
          = SortedMap.getitem h v k2 d ∧
        SortedMap_contains h (SortedMap_ass_subscript h v k none).1 k2
          = SortedMap_contains h v k2) ∧
      (SortedMap_subscript h (SortedMap_pop h v [k]).1 k2 = SortedMap_subscript h v k2 ∧
        SortedMap.getitem h (SortedMap_pop h v [k]).1 k2 d = SortedMap.getitem h v k2 d ∧
        SortedMap_contains h (SortedMap_pop h v [k]).1 k2 = SortedMap_contains h v k2) := by
  have hset := findKey_setitem hs v hv k value k2 hne
  have hdel := findKey_delitem hs v hv k k2 hne
  have hpop : findKey h (SortedMap_pop h v [k]).1 k2 = findKey h v k2 := by
    rw [SortedMap_pop_one, hdel.2]
    exact hdel.1
  have s1 := sorted_setitem hs v hv k value
  have s2 := sorted_delitem hs v hv k
  have s3 := sorted_SortedMap_pop hs v hv [k]
  exact ⟨⟨(lookup_same hs v _ hv s1 k2 hset none).1, (lookup_same hs v _ hv s1 k2 hset d).1,
      (lookup_same hs v _ hv s1 k2 hset d).2⟩,
    ⟨(lookup_same hs v _ hv s2 k2 hdel.1 none).1, (lookup_same hs v _ hv s2 k2 hdel.1 d).1,
      (lookup_same hs v _ hv s2 k2 hdel.1 d).2⟩,
    ⟨(lookup_same hs v _ hv s3 k2 hpop none).1, (lookup_same hs v _ hv s3 k2 hpop d).1,
      (lookup_same hs v _ hv s3 k2 hpop d).2⟩⟩

/-- Witness of C20: key 3 is set, deleted or popped in the vector holding 1, 3 and
5 while key 5 is looked up. -/
theorem C20_other_keys_witness :
    StrictTotal natHost ∧ Sorted natHost [⟨1, 10⟩, ⟨3, 30⟩, ⟨5, 50⟩] ∧
      natHost.eq 3 5 = false ∧
      ((SortedMap_subscript natHost
            (SortedMap_ass_subscript natHost [⟨1, 10⟩, ⟨3, 30⟩, ⟨5, 50⟩] 3 (some 31)).1 5
            = SortedMap_subscript natHost [⟨1, 10⟩, ⟨3, 30⟩, ⟨5, 50⟩] 5 ∧
          SortedMap.getitem natHost
            (SortedMap_ass_subscript natHost [⟨1, 10⟩, ⟨3, 30⟩, ⟨5, 50⟩] 3 (some 31)).1 5 none
            = SortedMap.getitem natHost [⟨1, 10⟩, ⟨3, 30⟩, ⟨5, 50⟩] 5 none ∧
          SortedMap_contains natHost
            (SortedMap_ass_subscript natHost [⟨1, 10⟩, ⟨3, 30⟩, ⟨5, 50⟩] 3 (some 31)).1 5
            = SortedMap_contains natHost [⟨1, 10⟩, ⟨3, 30⟩, ⟨5, 50⟩] 5) ∧
        (SortedMap_subscript natHost
            (SortedMap_ass_subscript natHost [⟨1, 10⟩, ⟨3, 30⟩, ⟨5, 50⟩] 3 none).1 5
            = SortedMap_subscript natHost [⟨1, 10⟩, ⟨3, 30⟩, ⟨5, 50⟩] 5 ∧
          SortedMap.getitem natHost
            (SortedMap_ass_subscript natHost [⟨1, 10⟩, ⟨3, 30⟩, ⟨5, 50⟩] 3 none).1 5 none
            = SortedMap.getitem natHost [⟨1, 10⟩, ⟨3, 30⟩, ⟨5, 50⟩] 5 none ∧
          SortedMap_contains natHost
            (SortedMap_ass_subscript natHost [⟨1, 10⟩, ⟨3, 30⟩, ⟨5, 50⟩] 3 none).1 5
            = SortedMap_contains natHost [⟨1, 10⟩, ⟨3, 30⟩, ⟨5, 50⟩] 5) ∧
        (SortedMap_subscript natHost
            (SortedMap_pop natHost [⟨1, 10⟩, ⟨3, 30⟩, ⟨5, 50⟩] [3]).1 5
            = SortedMap_subscript natHost [⟨1, 10⟩, ⟨3, 30⟩, ⟨5, 50⟩] 5 ∧
          SortedMap.getitem natHost
            (SortedMap_pop natHost [⟨1, 10⟩, ⟨3, 30⟩, ⟨5, 50⟩] [3]).1 5 none
            = SortedMap.getitem natHost [⟨1, 10⟩, ⟨3, 30⟩, ⟨5, 50⟩] 5 none ∧
          SortedMap_contains natHost
            (SortedMap_pop natHost [⟨1, 10⟩, ⟨3, 30⟩, ⟨5, 50⟩] [3]).1 5
            = SortedMap_contains natHost [⟨1, 10⟩, ⟨3, 30⟩, ⟨5, 50⟩] 5)) :=
  ⟨natHost_strictTotal, by decide, by decide,
    C20_other_keys natHost natHost_strictTotal [⟨1, 10⟩, ⟨3, 30⟩, ⟨5, 50⟩] (by decide)
      3 31 5 none (by decide)⟩

end LookupClaims


end SortedMapModel
